import Mathlib

/-!
# Donut_MyDevs: geometry_pipeline

A shallow embedding of `src/MyDevs/geometry_pipeline/geometry_pipeline.cpp`
(`BindlessRendering`) and `geometry_pipeline.h` (`GeometryPipeline`, the cube
data), with the properties of the specification proved over it.

Device objects (`nvrhi` handles) are identified by a natural number; a null
handle is `none`.  The device hands out a fresh identity for every object it
creates and keeps a log of the calls the application makes on it.
-/

namespace Donut

/-! ## Definitions -/

/-! ### Scene data read by the render loop -/

/-- Identity of a device object behind an `nvrhi` handle. -/
abbrev Handle := Nat

/-- The field of `engine::MeshGeometry` read by `Render`: `uint32_t numIndices`. -/
structure MeshGeometry where
  numIndices : Nat
deriving DecidableEq, Repr

/-- The field of `engine::MeshInfo` read by `Render`: `geometries`. -/
structure MeshInfo where
  geometries : List MeshGeometry
deriving DecidableEq, Repr

/-- A mesh instance: `GetMesh()` and `GetInstanceIndex()` (an `int`). -/
structure MeshInstance where
  mesh : MeshInfo
  instanceIndex : Int
deriving DecidableEq, Repr

/-- A loaded scene: `GetSceneGraph()->GetMeshInstances()`. -/
structure Scene where
  meshInstances : List MeshInstance
deriving DecidableEq, Repr

/-! ### Command list -/

/-- The push constants `int2`: two 32-bit signed integers. -/
structure int2 where
  x : Int
  y : Int
deriving DecidableEq, Repr

/-- The conversion `int(i)` of a `size_t` to a 32-bit `int`: the value modulo
`2^32`, read as a two's complement number. -/
def intOfSize (i : Nat) : Int :=
  if i % 2 ^ 32 < 2 ^ 31 then ((i % 2 ^ 32 : Nat) : Int)
  else ((i % 2 ^ 32 : Nat) : Int) - 2 ^ 32

/-- The viewport state of the view: the window viewport built from the
framebuffer width and height. -/
structure ViewportState where
  width : Nat
  height : Nat
deriving DecidableEq, Repr

/-- The fields of `nvrhi::GraphicsState` that `Render` sets. -/
structure GraphicsState where
  pipeline : Option Handle
  framebuffer : Option Handle
  bindings : List (Option Handle)
  viewport : ViewportState
deriving DecidableEq, Repr

/-- The fields of `nvrhi::DrawArguments` that `Render` sets. -/
structure DrawArguments where
  vertexCount : Nat
  instanceCount : Nat
deriving DecidableEq, Repr

/-- A command recorded into the command list between `open` and `close`. -/
inductive Command where
  | clearTextureFloat (texture : Option Handle)
  | clearDepthStencilTexture (texture : Option Handle)
  | writeBuffer (buffer : Option Handle)
  | setGraphicsState (state : GraphicsState)
  | setPushConstants (constants : int2)
  | draw (args : DrawArguments)
deriving DecidableEq, Repr

/-- The commands recorded so far into an open command list, oldest first. -/
abbrev CommandList := List Command

/-- Recording one command appends it to the list. -/
def CommandList.record (cl : CommandList) (c : Command) : CommandList :=
  cl ++ [c]

/-- The inner loop of a pass (lines 314-323 and 335-344), from index `i` on:
`for (size_t i = ...; i < mesh->geometries.size(); i++)`, pushing
`int2(instance->GetInstanceIndex(), int(i))` and drawing
`geometries[i]->numIndices` vertices, one instance. -/
def drawGeometries (inst : MeshInstance) (i : Nat) (cl : CommandList) : CommandList :=
  if h : i < inst.mesh.geometries.length then
    let constants : int2 := ⟨inst.instanceIndex, intOfSize i⟩
    let cl1 := cl.record (Command.setPushConstants constants)
    let args : DrawArguments :=
      ⟨(inst.mesh.geometries.get ⟨i, h⟩).numIndices, 1⟩
    drawGeometries inst (i + 1) (cl1.record (Command.draw args))
  else cl
termination_by inst.mesh.geometries.length - i

/-- The outer loop of a pass (lines 310-324 and 331-345):
`for (const auto& instance : GetMeshInstances())`. -/
def drawMeshInstances : List MeshInstance → CommandList → CommandList
  | [], cl => cl
  | inst :: rest, cl => drawMeshInstances rest (drawGeometries inst 0 cl)

/-! ### Device -/

/-- A texture created by the device, with the width and height of its
descriptor. -/
structure Texture where
  handle : Handle
  width : Nat
  height : Nat
deriving DecidableEq, Repr

/-- The attachments of `nvrhi::FramebufferDesc` set by `Render`. -/
structure FramebufferDesc where
  colorAttachment : Option Handle
  depthAttachment : Option Handle
deriving DecidableEq, Repr

/-- A framebuffer created by the device. -/
structure Framebuffer where
  handle : Handle
  desc : FramebufferDesc
deriving DecidableEq, Repr

/-- The framebuffer passed to `Render` by the device manager:
`getFramebufferInfo()` width and height, and the texture of
`getDesc().colorAttachments[0]`. -/
structure IFramebuffer where
  width : Nat
  height : Nat
  colorAttachment0 : Option Handle
deriving DecidableEq, Repr

/-- The shader and layout fields of `nvrhi::GraphicsPipelineDesc` set by
`Render` (the primitive type and render state are the same constants for both
pipelines). -/
structure GraphicsPipelineDesc where
  VS : Option Handle
  GS : Option Handle
  PS : Option Handle
  bindingLayouts : List (Option Handle)
deriving DecidableEq, Repr

/-- A call made on the device by `Render`, with the identity of the object it
returned. -/
inductive DeviceCall where
  | createTexture (width height : Nat) (result : Handle)
  | createFramebuffer (desc : FramebufferDesc) (result : Handle)
  | createGraphicsPipeline (desc : GraphicsPipelineDesc)
      (framebuffer : Option Handle) (result : Handle)
  | executeCommandList (commands : CommandList)
deriving DecidableEq, Repr

/-- The device: the next fresh object identity and the log of calls.  Every
creation is taken to succeed and to return a new, non-null object. -/
structure Device where
  nextHandle : Nat
  log : List DeviceCall
deriving DecidableEq, Repr

/-- Creation of an object whose call is not logged (shaders, layouts, binding
sets, buffers, command lists). -/
def Device.fresh (d : Device) : Handle × Device :=
  (d.nextHandle, { d with nextHandle := d.nextHandle + 1 })

/-- The call `createTexture`. -/
def Device.createTexture (d : Device) (width height : Nat) : Texture × Device :=
  (⟨d.nextHandle, width, height⟩,
   ⟨d.nextHandle + 1, d.log ++ [DeviceCall.createTexture width height d.nextHandle]⟩)

/-- The call `createFramebuffer`. -/
def Device.createFramebuffer (d : Device) (desc : FramebufferDesc) : Framebuffer × Device :=
  (⟨d.nextHandle, desc⟩,
   ⟨d.nextHandle + 1, d.log ++ [DeviceCall.createFramebuffer desc d.nextHandle]⟩)

/-- The call `createGraphicsPipeline`. -/
def Device.createGraphicsPipeline (d : Device) (desc : GraphicsPipelineDesc)
    (framebuffer : Option Handle) : Handle × Device :=
  (d.nextHandle,
   ⟨d.nextHandle + 1,
    d.log ++ [DeviceCall.createGraphicsPipeline desc framebuffer d.nextHandle]⟩)

/-- The call `executeCommandList`. -/
def Device.executeCommandList (d : Device) (cl : CommandList) : Device :=
  { d with log := d.log ++ [DeviceCall.executeCommandList cl] }

/-! ### The application object `BindlessRendering` -/

/-- The struct `MyDevs::RenderingPassBase`. -/
structure RenderingPassBase where
  bindingLayout : Option Handle
  bindingSet : Option Handle
  vertexShader : Option Handle
  pixelShader : Option Handle
  renderingPipeline : Option Handle
deriving DecidableEq, Repr

/-- The struct `MyDevs::ForwardPass`. -/
structure ForwardPass extends RenderingPassBase
deriving DecidableEq, Repr

/-- The struct `MyDevs::GeometryPass`. -/
structure GeometryPass extends RenderingPassBase where
  geometryShader : Option Handle
deriving DecidableEq, Repr

/-- The members of `BindlessRendering` that `Init`, `LoadScene`,
`BackBufferResizing` and `Render` read or write.  `m_DescriptorTableManager`
holds the identity of its descriptor table. -/
structure BindlessRendering where
  device : Device
  m_CommandList : Option Handle
  m_BindingLayout : Option Handle
  m_BindlessLayout : Option Handle
  m_BindingSet : Option Handle
  m_ForwardPassPipeline : Option Handle
  m_GeometryPassPipeline : Option Handle
  m_ForwardPass : Option ForwardPass
  m_GeometryPass : Option GeometryPass
  m_ViewConstants : Option Handle
  m_DepthBuffer : Option Texture
  m_Framebuffers : List (Option Framebuffer)
  m_Scene : Option Scene
  m_DescriptorTableManager : Option Handle
  m_View : ViewportState
deriving DecidableEq, Repr

/-- The application object as constructed, before `Init`: every handle and
pointer null. -/
def BindlessRendering.new (d : Device) : BindlessRendering :=
  { device := d, m_CommandList := none, m_BindingLayout := none,
    m_BindlessLayout := none, m_BindingSet := none,
    m_ForwardPassPipeline := none, m_GeometryPassPipeline := none,
    m_ForwardPass := none, m_GeometryPass := none, m_ViewConstants := none,
    m_DepthBuffer := none, m_Framebuffers := [], m_Scene := none,
    m_DescriptorTableManager := none, m_View := ⟨0, 0⟩ }

/-- `BindlessRendering::LoadScene` (lines 178-190): `scene` is the new scene
object after `Load` and `loaded` the value `Load` returned. -/
def LoadScene (s : BindlessRendering) (scene : Scene) (loaded : Bool) :
    Bool × BindlessRendering :=
  if loaded then (true, { s with m_Scene := some scene })
  else (false, s)

/-- The constructor `MyDevs::ForwardPass` (lines 59-65): two shaders, then a
binding layout and a binding set; the pipeline stays null. -/
def ForwardPass.create (d : Device) : ForwardPass × Device :=
  let vs := d.fresh
  let ps := vs.2.fresh
  let layout := ps.2.fresh
  let set := layout.2.fresh
  (⟨⟨some layout.1, some set.1, some vs.1, some ps.1, none⟩⟩, set.2)

/-- The constructor `MyDevs::GeometryPass` (lines 70-77): three shaders, then
a binding layout and a binding set; the pipeline stays null. -/
def GeometryPass.create (d : Device) : GeometryPass × Device :=
  let vs := d.fresh
  let gs := vs.2.fresh
  let ps := gs.2.fresh
  let layout := ps.2.fresh
  let set := layout.2.fresh
  (⟨⟨some layout.1, some set.1, some vs.1, some ps.1, none⟩, some gs.1⟩, set.2)

/-- `BindlessRendering::Init` (lines 115-176), as far as it writes the
members above; the objects that the framework classes create for themselves
(common passes, caches, the scene's buffers) are not tracked.  The scene file
is loaded synchronously through `LoadScene`; `m_Scene->FinishedLoading`
dereferences `m_Scene`, so there is no result when it is null. -/
def Init (s : BindlessRendering) (scene : Scene) (loaded : Bool) :
    Option (Bool × BindlessRendering) :=
  let bindless := s.device.fresh
  let table := bindless.2.fresh
  let cmdList := table.2.fresh
  let s1 : BindlessRendering :=
    { s with device := cmdList.2, m_BindlessLayout := some bindless.1,
             m_DescriptorTableManager := some table.1,
             m_CommandList := some cmdList.1 }
  let s2 := (LoadScene s1 scene loaded).2
  match s2.m_Scene with
  | none => none
  | some _ =>
    let viewConstants := s2.device.fresh
    let fwd := ForwardPass.create viewConstants.2
    let layout := fwd.2.fresh
    let set := layout.2.fresh
    let geo := GeometryPass.create set.2
    some (true,
      { s2 with device := geo.2, m_ViewConstants := some viewConstants.1,
                m_ForwardPass := some fwd.1, m_BindingLayout := some layout.1,
                m_BindingSet := some set.1, m_GeometryPass := some geo.1 })

/-- `BindlessRendering::BackBufferResizing` (lines 216-223).  Clearing the
binding cache changes none of the members modelled here. -/
def BackBufferResizing (s : BindlessRendering) : BindlessRendering :=
  { s with m_DepthBuffer := none, m_Framebuffers := [],
           m_ForwardPassPipeline := none, m_GeometryPassPipeline := none }

/-- `std::vector::resize(n)`: keep the first `n` entries, pad with null
handles. -/
def vectorResize {α : Type} (v : List (Option α)) (n : Nat) : List (Option α) :=
  v.take n ++ List.replicate (n - v.length) none

/-- `Render`, lines 229-244: create the depth buffer when there is none, with
the width and height of the framebuffer passed in. -/
def ensureDepthBuffer (s : BindlessRendering) (framebuffer : IFramebuffer) :
    BindlessRendering :=
  match s.m_DepthBuffer with
  | some _ => s
  | none =>
    let r := s.device.createTexture framebuffer.width framebuffer.height
    { s with m_DepthBuffer := some r.1, device := r.2 }

/-- `Render`, lines 246-255: resize the framebuffer cache to the back buffer
count and fill entry `fbindex` when it is null.  No result when `fbindex` is
not an index of the resized vector. -/
def ensureFramebuffer (s : BindlessRendering) (framebuffer : IFramebuffer)
    (backBufferCount fbindex : Nat) : Option BindlessRendering :=
  let fbs := vectorResize s.m_Framebuffers backBufferCount
  match fbs.get? fbindex with
  | none => none
  | some (some _) => some { s with m_Framebuffers := fbs }
  | some none =>
    let desc : FramebufferDesc :=
      ⟨framebuffer.colorAttachment0, s.m_DepthBuffer.map Texture.handle⟩
    let r := s.device.createFramebuffer desc
    some { s with m_Framebuffers := fbs.set fbindex (some r.1), device := r.2 }

/-- The handle `m_Framebuffers[fbindex]`. -/
def framebufferAt (s : BindlessRendering) (fbindex : Nat) : Option Handle :=
  (s.m_Framebuffers.get? fbindex).join.map Framebuffer.handle

/-- `Render`, lines 259-267: the descriptor of the forward pipeline. -/
def forwardPipelineDesc (fp : ForwardPass) (bindlessLayout : Option Handle) :
    GraphicsPipelineDesc :=
  ⟨fp.vertexShader, none, fp.pixelShader, [fp.bindingLayout, bindlessLayout]⟩

/-- `Render`, lines 273-282: the descriptor of the geometry pipeline. -/
def geometryPipelineDesc (gp : GeometryPass) (bindlessLayout : Option Handle) :
    GraphicsPipelineDesc :=
  ⟨gp.vertexShader, gp.geometryShader, gp.pixelShader,
   [gp.bindingLayout, bindlessLayout]⟩

/-- `Render`, lines 257-269: create the forward pipeline when
`m_ForwardPass->renderingPipeline` is null. -/
def ensureForwardPipeline (s : BindlessRendering) (fbindex : Nat) :
    Option BindlessRendering :=
  match s.m_ForwardPass with
  | none => none
  | some fp =>
    match fp.renderingPipeline with
    | some _ => some s
    | none =>
      let desc := forwardPipelineDesc fp s.m_BindlessLayout
      let r := s.device.createGraphicsPipeline desc (framebufferAt s fbindex)
      some { s with
        m_ForwardPass := some { fp with renderingPipeline := some r.1 },
        device := r.2 }

/-- `Render`, lines 271-285: create the geometry pipeline when
`m_GeometryPass->renderingPipeline` is null. -/
def ensureGeometryPipeline (s : BindlessRendering) (fbindex : Nat) :
    Option BindlessRendering :=
  match s.m_GeometryPass with
  | none => none
  | some gp =>
    match gp.renderingPipeline with
    | some _ => some s
    | none =>
      let desc := geometryPipelineDesc gp s.m_BindlessLayout
      let r := s.device.createGraphicsPipeline desc (framebufferAt s fbindex)
      some { s with
        m_GeometryPass := some { gp with renderingPipeline := some r.1 },
        device := r.2 }

/-- `Render`, lines 292-346: the commands recorded between `open` and
`close`.  No result when a dereferenced pointer is null. -/
def recordFrame (s : BindlessRendering) (framebuffer : IFramebuffer)
    (fbindex : Nat) : Option CommandList :=
  match s.m_CommandList, s.m_ForwardPass, s.m_GeometryPass,
        s.m_DescriptorTableManager, s.m_Scene with
  | some _, some fp, some gp, some table, some scene =>
    let cl0 : CommandList := []
    let cl1 := cl0.record (Command.clearTextureFloat framebuffer.colorAttachment0)
    let cl2 := cl1.record
      (Command.clearDepthStencilTexture (s.m_DepthBuffer.map Texture.handle))
    let cl3 := cl2.record (Command.writeBuffer s.m_ViewConstants)
    -- Forward Pass
    let state : GraphicsState :=
      { pipeline := fp.renderingPipeline,
        framebuffer := framebufferAt s fbindex,
        bindings := [fp.bindingSet, some table],
        viewport := s.m_View }
    let cl4 := cl3.record (Command.setGraphicsState state)
    let cl5 := drawMeshInstances scene.meshInstances cl4
    -- Geometry Pass
    let state2 : GraphicsState :=
      { state with pipeline := gp.renderingPipeline,
                   bindings := [gp.bindingSet, some table] }
    let cl6 := cl5.record (Command.setGraphicsState state2)
    some (drawMeshInstances scene.meshInstances cl6)
  | _, _, _, _, _ => none

/-- `BindlessRendering::Render` (lines 225-348); `backBufferCount` and
`fbindex` are the device manager's `GetBackBufferCount()` and
`GetCurrentBackBufferIndex()`. -/
def Render (s : BindlessRendering) (framebuffer : IFramebuffer)
    (backBufferCount fbindex : Nat) : Option BindlessRendering :=
  (ensureFramebuffer (ensureDepthBuffer s framebuffer) framebuffer
      backBufferCount fbindex).bind fun s1 =>
  (ensureForwardPipeline s1 fbindex).bind fun s2 =>
  (ensureGeometryPipeline s2 fbindex).bind fun s3 =>
  let s4 : BindlessRendering :=
    { s3 with m_View := ⟨framebuffer.width, framebuffer.height⟩ }
  (recordFrame s4 framebuffer fbindex).bind fun cl =>
  some { s4 with device := s4.device.executeCommandList cl }

/-! ### Observations on command lists and device logs -/

/-- Whether a command is a `setGraphicsState`. -/
def Command.isSetGraphicsState : Command → Bool
  | Command.setGraphicsState _ => true
  | _ => false

/-- Whether a command is a `draw`. -/
def Command.isDraw : Command → Bool
  | Command.draw _ => true
  | _ => false

/-- Whether a command is a `setPushConstants` or a `draw`. -/
def Command.isPushOrDraw : Command → Bool
  | Command.setPushConstants _ => true
  | Command.draw _ => true
  | _ => false

/-- The commands after the first `setGraphicsState` of a list. -/
def afterSetGraphicsState (cl : CommandList) : CommandList :=
  (cl.dropWhile fun c => !c.isSetGraphicsState).drop 1

/-- The commands up to the first `setGraphicsState` of a list, excluded. -/
def untilSetGraphicsState (cl : CommandList) : CommandList :=
  cl.takeWhile fun c => !c.isSetGraphicsState

/-- The commands recorded between the first and the second
`setGraphicsState`. -/
def firstPassCommands (cl : CommandList) : CommandList :=
  untilSetGraphicsState (afterSetGraphicsState cl)

/-- The commands recorded after the second `setGraphicsState`, up to the next
one if any. -/
def secondPassCommands (cl : CommandList) : CommandList :=
  untilSetGraphicsState (afterSetGraphicsState (afterSetGraphicsState cl))

/-- The states of the `setGraphicsState` commands of a list, in order. -/
def graphicsStates (cl : CommandList) : List GraphicsState :=
  cl.filterMap fun c =>
    match c with
    | Command.setGraphicsState st => some st
    | _ => none

/-- The command list of the last `executeCommandList` of a device log. -/
def lastExecuted (log : List DeviceCall) : Option CommandList :=
  match log.getLast? with
  | some (DeviceCall.executeCommandList cl) => some cl
  | _ => none

/-- Whether a device call is a `createGraphicsPipeline`. -/
def DeviceCall.isCreateGraphicsPipeline : DeviceCall → Bool
  | DeviceCall.createGraphicsPipeline _ _ _ => true
  | _ => false

/-- The `createGraphicsPipeline` calls of a device log, in order. -/
def pipelineCreations (log : List DeviceCall) : List DeviceCall :=
  log.filter DeviceCall.isCreateGraphicsPipeline

/-- The command lists executed in a device log, in order. -/
def executedLists (log : List DeviceCall) : List CommandList :=
  log.filterMap fun c =>
    match c with
    | DeviceCall.executeCommandList cl => some cl
    | _ => none

/-- The pipeline creation that turns a pipeline handle `old` into `new`: one
call when `old` is null, none otherwise. -/
def createdFor (old : Option Handle) (desc : GraphicsPipelineDesc)
    (framebuffer : Option Handle) (new : Option Handle) : List DeviceCall :=
  match old, new with
  | none, some h => [DeviceCall.createGraphicsPipeline desc framebuffer h]
  | _, _ => []

/-! ### Sequences of calls -/

/-- A call of the device manager on the application after `Init`. -/
inductive AppCall where
  | render (framebuffer : IFramebuffer) (backBufferCount fbindex : Nat)
  | backBufferResizing
deriving DecidableEq, Repr

/-- The back buffer index of a `render` call is below the back buffer count. -/
def AppCall.valid : AppCall → Prop
  | AppCall.render _ backBufferCount fbindex => fbindex < backBufferCount
  | AppCall.backBufferResizing => True

instance (c : AppCall) : Decidable c.valid := by
  cases c <;> unfold AppCall.valid <;> infer_instance

/-- One call on the application. -/
def AppCall.run (s : BindlessRendering) : AppCall → Option BindlessRendering
  | AppCall.render framebuffer backBufferCount fbindex =>
    Render s framebuffer backBufferCount fbindex
  | AppCall.backBufferResizing => some (BackBufferResizing s)

/-- A sequence of calls on the application, in order. -/
def runCalls : BindlessRendering → List AppCall → Option BindlessRendering
  | s, [] => some s
  | s, c :: cs => (c.run s).bind fun s1 => runCalls s1 cs

/-! ### The draw sequence of a pass in closed form -/

/-- The push-constants and draw commands of one geometry: index `i` of its
mesh, pushed as `conv i`, and `numIndices` vertices drawn once. -/
def geometryCommands (instanceIndex : Int) (conv : Nat → Int)
    (p : Nat × MeshGeometry) : List Command :=
  [Command.setPushConstants ⟨instanceIndex, conv p.1⟩,
   Command.draw ⟨p.2.numIndices, 1⟩]

/-- For each mesh instance in order and each geometry index `i` in ascending
order: one `setPushConstants (instance index, conv i)`, then one `draw` of
`numIndices` of geometry `i`, one instance. -/
def passCommands (conv : Nat → Int) (scene : Scene) : List Command :=
  scene.meshInstances.flatMap fun inst =>
    inst.mesh.geometries.enum.flatMap (geometryCommands inst.instanceIndex conv)

/-- The sequence with the geometry index itself as second push constant. -/
def claimedPass (scene : Scene) : List Command :=
  passCommands (fun i => (i : Int)) scene

/-- The sequence with the geometry index converted by `int(i)`. -/
def recordedPass (scene : Scene) : List Command :=
  passCommands intOfSize scene

/-- Every mesh of the scene has at most `2^31` geometries, so that every
geometry index is an `int`. -/
def Scene.indicesFitInt (scene : Scene) : Prop :=
  ∀ inst ∈ scene.meshInstances, inst.mesh.geometries.length ≤ 2 ^ 31

/-- What `Init` establishes and `Render` needs: the scene is loaded and the
passes, the command list and the descriptor table manager exist. -/
def Initialized (s : BindlessRendering) (scene : Scene) : Prop :=
  s.m_Scene = some scene ∧ s.m_ForwardPass.isSome = true ∧
  s.m_GeometryPass.isSome = true ∧ s.m_CommandList.isSome = true ∧
  s.m_DescriptorTableManager.isSome = true

instance (s : BindlessRendering) (scene : Scene) : Decidable (Initialized s scene) := by
  unfold Initialized; infer_instance

/-- The members that `Render` never writes. -/
def BindlessRendering.wiring (s : BindlessRendering) :=
  (s.m_Scene, s.m_CommandList, s.m_DescriptorTableManager, s.m_ViewConstants,
   s.m_BindlessLayout, s.m_ForwardPassPipeline, s.m_GeometryPassPipeline)

/-- The three commands recorded before the first pass. -/
def framePrologue (fb : IFramebuffer) (s : BindlessRendering) : CommandList :=
  [Command.clearTextureFloat fb.colorAttachment0,
   Command.clearDepthStencilTexture (s.m_DepthBuffer.map Texture.handle),
   Command.writeBuffer s.m_ViewConstants]

/-- The commands of a frame, given the two graphics states. -/
def frameCommands (pre : CommandList) (st1 st2 : GraphicsState)
    (scene : Scene) : CommandList :=
  pre ++ Command.setGraphicsState st1 ::
    (recordedPass scene ++ Command.setGraphicsState st2 :: recordedPass scene)

/-- Both pipelines exist, `L` is the list of pipeline creations so far, and
every executed frame used these two pipelines. -/
def Settled (s : BindlessRendering) (scene : Scene) (fp : ForwardPass)
    (gp : GeometryPass) (L : List DeviceCall) : Prop :=
  Initialized s scene ∧ s.m_ForwardPass = some fp ∧ s.m_GeometryPass = some gp ∧
  fp.renderingPipeline.isSome = true ∧ gp.renderingPipeline.isSome = true ∧
  pipelineCreations s.device.log = L ∧
  ∀ cl ∈ executedLists s.device.log,
    (graphicsStates cl).map GraphicsState.pipeline
      = [fp.renderingPipeline, gp.renderingPipeline]

/-! ### Concrete inputs -/

/-- The application after a successful `Init` on a device whose first free
object identity is 16 (the swap chain textures come before). -/
def startedApp (scene : Scene) : BindlessRendering :=
  match Init (BindlessRendering.new ⟨16, []⟩) scene true with
  | some r => r.2
  | none => BindlessRendering.new ⟨16, []⟩

/-- A scene of two mesh instances, with two and one geometries. -/
def sampleScene : Scene :=
  ⟨[⟨⟨[⟨6⟩, ⟨36⟩]⟩, 0⟩, ⟨⟨[⟨3⟩]⟩, 1⟩]⟩

/-- The framebuffer of a 1280 x 720 window whose back buffer is texture 0. -/
def sampleFramebuffer : IFramebuffer := ⟨1280, 720, some 0⟩

/-- A mesh of `2^31 + 1` geometries. -/
def hugeMesh : MeshInfo := ⟨List.replicate (2 ^ 31 + 1) ⟨3⟩⟩

/-- A scene of one instance of `hugeMesh`. -/
def hugeScene : Scene := ⟨[⟨hugeMesh, 0⟩]⟩

/-- A scene of one instance whose mesh has no geometry. -/
def bareScene : Scene := ⟨[⟨⟨[]⟩, 7⟩]⟩

/-! ### The header `geometry_pipeline.h`: cube mesh and constant buffer layout -/

/-- The type `math::float3`, with exact rational components. -/
structure float3 where
  x : ℚ
  y : ℚ
  z : ℚ
deriving DecidableEq

/-- The type `math::float2`, with exact rational components. -/
structure float2 where
  x : ℚ
  y : ℚ
deriving DecidableEq

/-- The struct `Vertex` (lines 23-27). -/
structure Vertex where
  position : float3
  uv : float2
deriving DecidableEq

/-- The array `g_Vertices` (lines 29-59). -/
def g_Vertices : List Vertex := [
  ⟨⟨-0.5,  0.5, -0.5⟩, ⟨0.0, 0.0⟩⟩, -- front face
  ⟨⟨ 0.5, -0.5, -0.5⟩, ⟨1.0, 1.0⟩⟩,
  ⟨⟨-0.5, -0.5, -0.5⟩, ⟨0.0, 1.0⟩⟩,
  ⟨⟨ 0.5,  0.5, -0.5⟩, ⟨1.0, 0.0⟩⟩,

  ⟨⟨ 0.5, -0.5, -0.5⟩, ⟨0.0, 1.0⟩⟩, -- right side face
  ⟨⟨ 0.5,  0.5,  0.5⟩, ⟨1.0, 0.0⟩⟩,
  ⟨⟨ 0.5, -0.5,  0.5⟩, ⟨1.0, 1.0⟩⟩,
  ⟨⟨ 0.5,  0.5, -0.5⟩, ⟨0.0, 0.0⟩⟩,

  ⟨⟨-0.5,  0.5,  0.5⟩, ⟨0.0, 0.0⟩⟩, -- left side face
  ⟨⟨-0.5, -0.5, -0.5⟩, ⟨1.0, 1.0⟩⟩,
  ⟨⟨-0.5, -0.5,  0.5⟩, ⟨0.0, 1.0⟩⟩,
  ⟨⟨-0.5,  0.5, -0.5⟩, ⟨1.0, 0.0⟩⟩,

  ⟨⟨ 0.5,  0.5,  0.5⟩, ⟨0.0, 0.0⟩⟩, -- back face
  ⟨⟨-0.5, -0.5,  0.5⟩, ⟨1.0, 1.0⟩⟩,
  ⟨⟨ 0.5, -0.5,  0.5⟩, ⟨0.0, 1.0⟩⟩,
  ⟨⟨-0.5,  0.5,  0.5⟩, ⟨1.0, 0.0⟩⟩,

  ⟨⟨-0.5,  0.5, -0.5⟩, ⟨0.0, 1.0⟩⟩, -- top face
  ⟨⟨ 0.5,  0.5,  0.5⟩, ⟨1.0, 0.0⟩⟩,
  ⟨⟨ 0.5,  0.5, -0.5⟩, ⟨1.0, 1.0⟩⟩,
  ⟨⟨-0.5,  0.5,  0.5⟩, ⟨0.0, 0.0⟩⟩,

  ⟨⟨ 0.5, -0.5,  0.5⟩, ⟨1.0, 1.0⟩⟩, -- bottom face
  ⟨⟨-0.5, -0.5, -0.5⟩, ⟨0.0, 0.0⟩⟩,
  ⟨⟨ 0.5, -0.5, -0.5⟩, ⟨1.0, 0.0⟩⟩,
  ⟨⟨-0.5, -0.5,  0.5⟩, ⟨0.0, 1.0⟩⟩]

/-- The array `g_Indices` (lines 61-68). -/
def g_Indices : List Nat := [
   0,  1,  2,   0,  3,  1, -- front face
   4,  5,  6,   4,  7,  5, -- left face
   8,  9, 10,   8, 11,  9, -- right face
  12, 13, 14,  12, 15, 13, -- back face
  16, 17, 18,  16, 19, 17, -- top face
  20, 21, 22,  20, 23, 21] -- bottom face

/-- A face of the cube, as named in the comments of the two arrays. -/
inductive Face where
  | front | left | right | back | top | bottom
deriving DecidableEq, Repr

/-- The face named by the comment on each block of four vertices of
`g_Vertices`, in order (lines 30, 35, 40, 45, 50, 55). -/
def g_VerticesComments : List Face :=
  [Face.front, Face.right, Face.left, Face.back, Face.top, Face.bottom]

/-- The face named by the comment on each line of six indices of `g_Indices`,
in order (lines 62-67). -/
def g_IndicesComments : List Face :=
  [Face.front, Face.left, Face.right, Face.back, Face.top, Face.bottom]

/-- The face named by the comment of the block that vertex `i` is in. -/
def vertexFace (i : Nat) : Option Face := g_VerticesComments.get? (i / 4)

/-- The `k`-th group of six indices (one line of `g_Indices`). -/
def indexGroup (k : Nat) : List Nat := (g_Indices.drop (6 * k)).take 6

/-- The position of the vertex an index refers to. -/
def positionAt (i : Nat) : Option float3 := (g_Vertices.get? i).map Vertex.position

/-- A coordinate of a position: axis 0 is x, 1 is y, 2 is z. -/
def float3.coord (p : float3) : Fin 3 → ℚ
  | 0 => p.x
  | 1 => p.y
  | 2 => p.z

/-- The triangles of an indexed triangle list: consecutive triples. -/
def triangles : List Nat → List (Nat × Nat × Nat)
  | a :: b :: c :: rest => (a, b, c) :: triangles rest
  | _ => []

/-- The eight corners of the cube of side 1 centred at the origin. -/
def cubeCorners : List float3 :=
  [⟨-0.5, -0.5, -0.5⟩, ⟨-0.5, -0.5, 0.5⟩, ⟨-0.5, 0.5, -0.5⟩, ⟨-0.5, 0.5, 0.5⟩,
   ⟨0.5, -0.5, -0.5⟩, ⟨0.5, -0.5, 0.5⟩, ⟨0.5, 0.5, -0.5⟩, ⟨0.5, 0.5, 0.5⟩]

/-- The face plane of each index group, in order, as (axis, value of that
coordinate). -/
def facePlanes : List (Fin 3 × ℚ) :=
  [(2, -0.5), (0, 0.5), (0, -0.5), (2, 0.5), (1, 0.5), (1, -0.5)]

/-- Size in bytes of a `float`. -/
def sizeofFloat : Nat := 4

/-- The members of `GeometryPipeline::ConstantBufferEntry` (lines 192-196) as
numbers of floats: `dm::float4x4 viewProjMatrix`, four rows of four floats,
and `float padding[16 * 3]`. -/
def ConstantBufferEntry.members : List Nat := [4 * 4, 16 * 3]

/-- The value of `sizeof(ConstantBufferEntry)`: its members are all floats, so
there is no padding between them. -/
def sizeofConstantBufferEntry : Nat :=
  ConstantBufferEntry.members.sum * sizeofFloat

/-- Modelled from the spec: the constant `nvrhi::c_ConstantBufferOffsetSizeAlignment`
is declared outside this repository; the specification and the message of the
`static_assert` (line 198) give it as 256 bytes. -/
def c_ConstantBufferOffsetSizeAlignment : Nat := 256

/-- The fields of `nvrhi::BufferRange`: two `uint64_t`. -/
structure BufferRange where
  byteOffset : Nat
  byteSize : Nat
deriving DecidableEq, Repr

/-- The byte size passed for the constant buffer (line 106):
`sizeof(ConstantBufferEntry) * c_NumViews`, a `size_t` product. -/
def constantBufferByteSize (numViews : Nat) : Nat :=
  (sizeofConstantBufferEntry * numViews) % 2 ^ 64

/-- The buffer range bound for a view (line 174):
`BufferRange(sizeof(ConstantBufferEntry) * viewIndex, sizeof(ConstantBufferEntry))`. -/
def viewBufferRange (viewIndex : Nat) : BufferRange :=
  ⟨(sizeofConstantBufferEntry * viewIndex) % 2 ^ 64, sizeofConstantBufferEntry⟩

/-- The ranges bound by the loop of the constructor (lines 169-186) when no
binding set creation fails, for `viewIndex` from `i` up to `numViews`. -/
def viewBufferRanges (numViews i : Nat) : List BufferRange :=
  if i < numViews then viewBufferRange i :: viewBufferRanges numViews (i + 1)
  else []
termination_by numViews - i

/-- Two byte ranges have no byte in common. -/
def BufferRange.disjoint (a b : BufferRange) : Prop :=
  a.byteOffset + a.byteSize ≤ b.byteOffset ∨ b.byteOffset + b.byteSize ≤ a.byteOffset

/-- The number of views of the sample: `constexpr uint32_t c_NumViews = 1`. -/
def c_NumViews : Nat := 1

/-! ### Winding of the cube triangles -/

/-- The difference of two positions. -/
def float3.sub (a b : float3) : float3 := ⟨a.x - b.x, a.y - b.y, a.z - b.z⟩

/-- The cross product of two vectors. -/
def float3.cross (u v : float3) : float3 :=
  ⟨u.y * v.z - u.z * v.y, u.z * v.x - u.x * v.z, u.x * v.y - u.y * v.x⟩

/-- The dot product of two vectors. -/
def float3.dot (u v : float3) : ℚ := u.x * v.x + u.y * v.y + u.z * v.z

/-- The cross product `(P_b - P_a) x (P_c - P_a)` of a triangle of positions. -/
def triangleNormal (pa pb pc : float3) : float3 :=
  (pb.sub pa).cross (pc.sub pa)

/-- The unit vector along an axis, pointing to the side of the origin on
which the plane `coordinate = value` lies. -/
def outwardNormal (axis : Fin 3) (value : ℚ) : float3 :=
  match axis with
  | 0 => ⟨if 0 < value then 1 else -1, 0, 0⟩
  | 1 => ⟨0, if 0 < value then 1 else -1, 0⟩
  | 2 => ⟨0, 0, if 0 < value then 1 else -1⟩

/-! ### The depth buffer and the framebuffer cache -/

/-- Every non-null entry of `m_Framebuffers` has the current, non-null
`m_DepthBuffer` as its depth attachment. -/
def DepthCacheInv (s : BindlessRendering) : Prop :=
  ∀ f, some f ∈ s.m_Framebuffers →
    ∃ d, s.m_DepthBuffer = some d ∧ f.desc.depthAttachment = some d.handle

/-! ## Lemmas -/

theorem intOfSize_of_lt {i : Nat} (h : i < 2 ^ 31) : intOfSize i = (i : Int) := by
  unfold intOfSize
  rw [if_pos (by omega)]
  omega

theorem intOfSize_lt (i : Nat) : intOfSize i < 2 ^ 31 := by
  unfold intOfSize
  have h2 : i % 2 ^ 32 < 2 ^ 32 := Nat.mod_lt _ (by norm_num)
  split <;> omega

theorem drawGeometries_eq (inst : MeshInstance) (n : Nat) :
    ∀ (i : Nat) (cl : CommandList), inst.mesh.geometries.length - i = n →
      drawGeometries inst i cl = cl ++
        (List.enumFrom i (inst.mesh.geometries.drop i)).flatMap
          (geometryCommands inst.instanceIndex intOfSize) := by
  induction n with
  | zero =>
    intro i cl h
    have hi : ¬ i < inst.mesh.geometries.length := by omega
    rw [drawGeometries, dif_neg hi, List.drop_of_length_le (by omega)]
    simp
  | succ n ih =>
    intro i cl h
    have hi : i < inst.mesh.geometries.length := by omega
    rw [drawGeometries, dif_pos hi]
    simp only []
    rw [ih (i + 1) _ (by omega), List.drop_eq_getElem_cons hi]
    simp only [CommandList.record, geometryCommands, List.enumFrom_cons,
      List.flatMap_cons, List.append_assoc, List.cons_append, List.nil_append,
      List.get_eq_getElem]

theorem drawMeshInstances_eq :
    ∀ (insts : List MeshInstance) (cl : CommandList),
      drawMeshInstances insts cl = cl ++ insts.flatMap fun inst =>
        inst.mesh.geometries.enum.flatMap
          (geometryCommands inst.instanceIndex intOfSize) := by
  intro insts
  induction insts with
  | nil => intro cl; simp [drawMeshInstances]
  | cons inst rest ih =>
    intro cl
    rw [drawMeshInstances, ih, drawGeometries_eq inst _ 0 cl rfl]
    simp [List.enum]

theorem drawMeshInstances_scene (scene : Scene) (cl : CommandList) :
    drawMeshInstances scene.meshInstances cl = cl ++ recordedPass scene :=
  drawMeshInstances_eq scene.meshInstances cl

theorem vectorResize_length {α : Type} (v : List (Option α)) (n : Nat) :
    (vectorResize v n).length = n := by
  simp only [vectorResize, List.length_append, List.length_take, List.length_replicate]
  omega

theorem ensureDepthBuffer_spec (s : BindlessRendering) (fb : IFramebuffer) :
    (ensureDepthBuffer s fb).wiring = s.wiring ∧
    (ensureDepthBuffer s fb).m_ForwardPass = s.m_ForwardPass ∧
    (ensureDepthBuffer s fb).m_GeometryPass = s.m_GeometryPass ∧
    (ensureDepthBuffer s fb).m_Framebuffers = s.m_Framebuffers ∧
    (ensureDepthBuffer s fb).m_DepthBuffer.isSome = true := by
  unfold ensureDepthBuffer
  cases h : s.m_DepthBuffer <;> simp [BindlessRendering.wiring, h]

theorem ensureFramebuffer_spec (s : BindlessRendering) (fb : IFramebuffer)
    (count idx : Nat) (hidx : idx < count) :
    ∃ s1, ensureFramebuffer s fb count idx = some s1 ∧
      s1.wiring = s.wiring ∧ s1.m_ForwardPass = s.m_ForwardPass ∧
      s1.m_GeometryPass = s.m_GeometryPass ∧
      s1.m_DepthBuffer = s.m_DepthBuffer ∧
      (framebufferAt s1 idx).isSome = true := by
  have hlen := vectorResize_length s.m_Framebuffers count
  unfold ensureFramebuffer
  simp only []
  cases hget : (vectorResize s.m_Framebuffers count).get? idx with
  | none =>
    rw [List.get?_eq_getElem?, List.getElem?_eq_none_iff] at hget
    omega
  | some o =>
    cases o with
    | some f =>
      refine ⟨_, rfl, rfl, rfl, rfl, rfl, ?_⟩
      simp only [framebufferAt, hget]
      rfl
    | none =>
      refine ⟨_, rfl, rfl, rfl, rfl, rfl, ?_⟩
      simp [framebufferAt, List.getElem?_set, hlen, hidx]

theorem ensureForwardPipeline_spec (s : BindlessRendering) (idx : Nat)
    (fp : ForwardPass) (h : s.m_ForwardPass = some fp) :
    ∃ s2 fp2, ensureForwardPipeline s idx = some s2 ∧
      s2.m_ForwardPass = some fp2 ∧ fp2.renderingPipeline.isSome = true ∧
      fp2.bindingSet = fp.bindingSet ∧
      s2.wiring = s.wiring ∧ s2.m_GeometryPass = s.m_GeometryPass ∧
      s2.m_DepthBuffer = s.m_DepthBuffer ∧
      s2.m_Framebuffers = s.m_Framebuffers := by
  unfold ensureForwardPipeline
  rw [h]
  dsimp only
  cases hp : fp.renderingPipeline with
  | some p => exact ⟨s, fp, rfl, h, by simp [hp], rfl, rfl, rfl, rfl, rfl⟩
  | none => exact ⟨_, _, rfl, rfl, rfl, rfl, rfl, rfl, rfl, rfl⟩

theorem ensureGeometryPipeline_spec (s : BindlessRendering) (idx : Nat)
    (gp : GeometryPass) (h : s.m_GeometryPass = some gp) :
    ∃ s3 gp3, ensureGeometryPipeline s idx = some s3 ∧
      s3.m_GeometryPass = some gp3 ∧ gp3.renderingPipeline.isSome = true ∧
      gp3.bindingSet = gp.bindingSet ∧
      s3.wiring = s.wiring ∧ s3.m_ForwardPass = s.m_ForwardPass ∧
      s3.m_DepthBuffer = s.m_DepthBuffer ∧
      s3.m_Framebuffers = s.m_Framebuffers := by
  unfold ensureGeometryPipeline
  rw [h]
  dsimp only
  cases hp : gp.renderingPipeline with
  | some p => exact ⟨s, gp, rfl, h, by simp [hp], rfl, rfl, rfl, rfl, rfl⟩
  | none => exact ⟨_, _, rfl, rfl, rfl, rfl, rfl, rfl, rfl, rfl⟩

theorem recordFrame_spec (s : BindlessRendering) (fb : IFramebuffer)
    (idx : Nat) (scene : Scene) (fp : ForwardPass) (gp : GeometryPass)
    (cmdList table : Handle)
    (hc : s.m_CommandList = some cmdList) (hf : s.m_ForwardPass = some fp)
    (hg : s.m_GeometryPass = some gp)
    (ht : s.m_DescriptorTableManager = some table)
    (hs : s.m_Scene = some scene) :
    recordFrame s fb idx = some (frameCommands (framePrologue fb s)
      ⟨fp.renderingPipeline, framebufferAt s idx, [fp.bindingSet, some table], s.m_View⟩
      ⟨gp.renderingPipeline, framebufferAt s idx, [gp.bindingSet, some table], s.m_View⟩
      scene) := by
  unfold recordFrame
  rw [hc, hf, hg, ht, hs]
  simp [drawMeshInstances_scene, CommandList.record, frameCommands, framePrologue]

theorem wiring_eq_iff (s t : BindlessRendering) :
    s.wiring = t.wiring ↔
      s.m_Scene = t.m_Scene ∧ s.m_CommandList = t.m_CommandList ∧
      s.m_DescriptorTableManager = t.m_DescriptorTableManager ∧
      s.m_ViewConstants = t.m_ViewConstants ∧
      s.m_BindlessLayout = t.m_BindlessLayout ∧
      s.m_ForwardPassPipeline = t.m_ForwardPassPipeline ∧
      s.m_GeometryPassPipeline = t.m_GeometryPassPipeline := by
  simp [BindlessRendering.wiring]

theorem lastExecuted_append (log : List DeviceCall) (cl : CommandList) :
    lastExecuted (log ++ [DeviceCall.executeCommandList cl]) = some cl := by
  simp [lastExecuted]

/-- One `Render` of an initialized application with a valid back buffer index
succeeds, leaves it initialized with both pipelines and the current
framebuffer non-null, and executes the frame built from the resulting
members. -/
theorem Render_spec (s : BindlessRendering) (fb : IFramebuffer)
    (count idx : Nat) (scene : Scene)
    (h : Initialized s scene) (hidx : idx < count) :
    ∃ s1 fp gp table, Render s fb count idx = some s1 ∧
      s1.m_ForwardPass = some fp ∧ s1.m_GeometryPass = some gp ∧
      s1.m_DescriptorTableManager = some table ∧
      fp.renderingPipeline.isSome = true ∧ gp.renderingPipeline.isSome = true ∧
      (framebufferAt s1 idx).isSome = true ∧
      s1.m_DepthBuffer.isSome = true ∧
      Initialized s1 scene ∧
      s1.m_View = ⟨fb.width, fb.height⟩ ∧
      lastExecuted s1.device.log = some (frameCommands (framePrologue fb s1)
        ⟨fp.renderingPipeline, framebufferAt s1 idx, [fp.bindingSet, some table], s1.m_View⟩
        ⟨gp.renderingPipeline, framebufferAt s1 idx, [gp.bindingSet, some table], s1.m_View⟩
        scene) := by
  obtain ⟨hs, hf, hg, hc, ht⟩ := h
  obtain ⟨fp0, hf⟩ := Option.isSome_iff_exists.mp hf
  obtain ⟨gp0, hg⟩ := Option.isSome_iff_exists.mp hg
  obtain ⟨c0, hc⟩ := Option.isSome_iff_exists.mp hc
  obtain ⟨t0, ht⟩ := Option.isSome_iff_exists.mp ht
  obtain ⟨dw, df, dg, -, dd⟩ := ensureDepthBuffer_spec s fb
  obtain ⟨s1, e1, w1, f1, g1, d1, b1⟩ :=
    ensureFramebuffer_spec (ensureDepthBuffer s fb) fb count idx hidx
  obtain ⟨s2, fp2, e2, f2, p2, -, w2, g2, d2, b2⟩ :=
    ensureForwardPipeline_spec s1 idx fp0 (by rw [f1, df, hf])
  obtain ⟨s3, gp3, e3, g3, p3, -, w3, f3, d3, b3⟩ :=
    ensureGeometryPipeline_spec s2 idx gp0 (by rw [g2, g1, dg, hg])
  rw [wiring_eq_iff] at dw w1 w2 w3
  have hscene : s3.m_Scene = some scene := by
    rw [w3.1, w2.1, w1.1, dw.1, hs]
  have hcl : s3.m_CommandList = some c0 := by
    rw [w3.2.1, w2.2.1, w1.2.1, dw.2.1, hc]
  have htab : s3.m_DescriptorTableManager = some t0 := by
    rw [w3.2.2.1, w2.2.2.1, w1.2.2.1, dw.2.2.1, ht]
  have hfp : s3.m_ForwardPass = some fp2 := by rw [f3, f2]
  have hfb : framebufferAt s3 idx = framebufferAt s1 idx := by
    simp only [framebufferAt, b3, b2]
  have hrec := recordFrame_spec
    { s3 with m_View := ⟨fb.width, fb.height⟩ } fb idx scene fp2 gp3 c0 t0
    hcl hfp g3 htab hscene
  refine ⟨{ s3 with
      m_View := ⟨fb.width, fb.height⟩,
      device := s3.device.executeCommandList (frameCommands
        [Command.clearTextureFloat fb.colorAttachment0,
         Command.clearDepthStencilTexture (s3.m_DepthBuffer.map Texture.handle),
         Command.writeBuffer s3.m_ViewConstants]
        ⟨fp2.renderingPipeline, framebufferAt s3 idx, [fp2.bindingSet, some t0],
          ⟨fb.width, fb.height⟩⟩
        ⟨gp3.renderingPipeline, framebufferAt s3 idx, [gp3.bindingSet, some t0],
          ⟨fb.width, fb.height⟩⟩
        scene) },
    fp2, gp3, t0, ?_, hfp, g3, htab, p2, p3, ?_, ?_, ?_, rfl, ?_⟩
  · unfold Render
    rw [e1, Option.some_bind, e2, Option.some_bind, e3, Option.some_bind]
    simp only []
    rw [hrec, Option.some_bind]
    rfl
  · show (framebufferAt s3 idx).isSome = true
    rw [hfb]; exact b1
  · show s3.m_DepthBuffer.isSome = true
    rw [d3, d2, d1]; exact dd
  · exact ⟨hscene, by simp [hfp], by simp [g3], by simp [hcl], by simp [htab]⟩
  · exact lastExecuted_append _ _

theorem untilSetGraphicsState_append_cons (P : CommandList) (st : GraphicsState)
    (rest : CommandList) (hP : ∀ c ∈ P, c.isSetGraphicsState = false) :
    untilSetGraphicsState (P ++ Command.setGraphicsState st :: rest) = P := by
  induction P with
  | nil => simp [untilSetGraphicsState, Command.isSetGraphicsState]
  | cons c P ih =>
    have hc := hP c (List.mem_cons_self _ _)
    have ih1 := ih fun d hd => hP d (List.mem_cons_of_mem _ hd)
    simp only [untilSetGraphicsState] at ih1 ⊢
    simp [List.takeWhile_cons, hc, ih1]

theorem untilSetGraphicsState_self (P : CommandList)
    (hP : ∀ c ∈ P, c.isSetGraphicsState = false) :
    untilSetGraphicsState P = P := by
  induction P with
  | nil => simp [untilSetGraphicsState]
  | cons c P ih =>
    have hc := hP c (List.mem_cons_self _ _)
    have ih1 := ih fun d hd => hP d (List.mem_cons_of_mem _ hd)
    simp only [untilSetGraphicsState] at ih1 ⊢
    simp [List.takeWhile_cons, hc, ih1]

theorem afterSetGraphicsState_append_cons (P : CommandList) (st : GraphicsState)
    (rest : CommandList) (hP : ∀ c ∈ P, c.isSetGraphicsState = false) :
    afterSetGraphicsState (P ++ Command.setGraphicsState st :: rest) = rest := by
  induction P with
  | nil => simp [afterSetGraphicsState, Command.isSetGraphicsState]
  | cons c P ih =>
    have hc := hP c (List.mem_cons_self _ _)
    have ih1 := ih fun d hd => hP d (List.mem_cons_of_mem _ hd)
    simp only [afterSetGraphicsState] at ih1 ⊢
    simp [List.dropWhile_cons, hc, ih1]

theorem mem_passCommands {conv : Nat → Int} {scene : Scene} {c : Command}
    (h : c ∈ passCommands conv scene) :
    ∃ inst ∈ scene.meshInstances, ∃ i g, (i, g) ∈ inst.mesh.geometries.enum ∧
      (c = Command.setPushConstants ⟨inst.instanceIndex, conv i⟩ ∨
       c = Command.draw ⟨g.numIndices, 1⟩) := by
  simp only [passCommands, List.mem_flatMap] at h
  obtain ⟨inst, hinst, ⟨i, g⟩, hp, hc⟩ := h
  refine ⟨inst, hinst, i, g, hp, ?_⟩
  simpa [geometryCommands] using hc

theorem passCommands_not_setGraphicsState (conv : Nat → Int) (scene : Scene) :
    ∀ c ∈ passCommands conv scene, c.isSetGraphicsState = false := by
  intro c hc
  obtain ⟨inst, -, i, g, -, h | h⟩ := mem_passCommands hc <;>
    simp [h, Command.isSetGraphicsState]

theorem passCommands_filter_pushOrDraw (conv : Nat → Int) (scene : Scene) :
    (passCommands conv scene).filter Command.isPushOrDraw = passCommands conv scene := by
  rw [List.filter_eq_self]
  intro c hc
  obtain ⟨inst, -, i, g, -, h | h⟩ := mem_passCommands hc <;>
    simp [h, Command.isPushOrDraw]

theorem countP_isDraw_enumFrom (idx : Int) (conv : Nat → Int) :
    ∀ (gs : List MeshGeometry) (n : Nat),
      ((List.enumFrom n gs).flatMap (geometryCommands idx conv)).countP
        Command.isDraw = gs.length := by
  intro gs
  induction gs with
  | nil => intro n; simp
  | cons g gs ih =>
    intro n
    simp only [List.enumFrom_cons, List.flatMap_cons, List.countP_append, ih,
      List.length_cons]
    simp [geometryCommands, List.countP_cons, Command.isDraw]
    omega

theorem countP_isDraw_passCommands (conv : Nat → Int) (scene : Scene) :
    (passCommands conv scene).countP Command.isDraw =
      (scene.meshInstances.map fun inst => inst.mesh.geometries.length).sum := by
  unfold passCommands
  rw [List.countP_flatMap]
  congr 1
  apply List.map_congr_left
  intro inst _
  exact countP_isDraw_enumFrom inst.instanceIndex conv inst.mesh.geometries 0

theorem recordedPass_plain (scene : Scene) :
    ∀ c ∈ recordedPass scene, c.isSetGraphicsState = false :=
  passCommands_not_setGraphicsState intOfSize scene

theorem recordedPass_eq_claimedPass (scene : Scene) (h : scene.indicesFitInt) :
    recordedPass scene = claimedPass scene := by
  unfold recordedPass claimedPass passCommands
  apply List.flatMap_congr
  intro inst hinst
  apply List.flatMap_congr
  rintro ⟨i, g⟩ hp
  have hi := (List.mem_enum hp).1
  have hle := h inst hinst
  simp only [geometryCommands]
  rw [intOfSize_of_lt (by omega)]

theorem framePrologue_plain (fb : IFramebuffer) (s : BindlessRendering) :
    ∀ c ∈ framePrologue fb s,
      c.isSetGraphicsState = false ∧ c.isDraw = false ∧ c.isPushOrDraw = false := by
  intro c hc
  simp only [framePrologue, List.mem_cons, List.mem_singleton, List.not_mem_nil,
    or_false] at hc
  rcases hc with h | h | h <;>
    simp [h, Command.isSetGraphicsState, Command.isDraw, Command.isPushOrDraw]

theorem firstPassCommands_frame (pre : CommandList) (st1 st2 : GraphicsState)
    (scene : Scene) (hpre : ∀ c ∈ pre, c.isSetGraphicsState = false) :
    firstPassCommands (frameCommands pre st1 st2 scene) = recordedPass scene := by
  unfold firstPassCommands frameCommands
  rw [afterSetGraphicsState_append_cons _ _ _ hpre,
    untilSetGraphicsState_append_cons _ _ _ (recordedPass_plain scene)]

theorem secondPassCommands_frame (pre : CommandList) (st1 st2 : GraphicsState)
    (scene : Scene) (hpre : ∀ c ∈ pre, c.isSetGraphicsState = false) :
    secondPassCommands (frameCommands pre st1 st2 scene) = recordedPass scene := by
  unfold secondPassCommands frameCommands
  rw [afterSetGraphicsState_append_cons _ _ _ hpre,
    afterSetGraphicsState_append_cons _ _ _ (recordedPass_plain scene),
    untilSetGraphicsState_self _ (recordedPass_plain scene)]

theorem untilSetGraphicsState_frame (pre : CommandList) (st1 st2 : GraphicsState)
    (scene : Scene) (hpre : ∀ c ∈ pre, c.isSetGraphicsState = false) :
    untilSetGraphicsState (frameCommands pre st1 st2 scene) = pre := by
  unfold frameCommands
  rw [untilSetGraphicsState_append_cons _ _ _ hpre]

theorem graphicsStates_of_plain (P : CommandList)
    (hP : ∀ c ∈ P, c.isSetGraphicsState = false) : graphicsStates P = [] := by
  induction P with
  | nil => rfl
  | cons c P ih =>
    have hc := hP c (List.mem_cons_self _ _)
    have ih1 := ih fun d hd => hP d (List.mem_cons_of_mem _ hd)
    cases c <;> simp_all [graphicsStates, Command.isSetGraphicsState]

theorem graphicsStates_frame (pre : CommandList) (st1 st2 : GraphicsState)
    (scene : Scene) (hpre : ∀ c ∈ pre, c.isSetGraphicsState = false) :
    graphicsStates (frameCommands pre st1 st2 scene) = [st1, st2] := by
  have h1 := graphicsStates_of_plain pre hpre
  have h2 := graphicsStates_of_plain (recordedPass scene)
    (recordedPass_plain scene)
  simp only [graphicsStates] at h1 h2 ⊢
  simp [frameCommands, List.filterMap_append, List.filterMap_cons, h1, h2]

theorem countP_isSetGraphicsState_frame (pre : CommandList)
    (st1 st2 : GraphicsState) (scene : Scene)
    (hpre : ∀ c ∈ pre, c.isSetGraphicsState = false) :
    (frameCommands pre st1 st2 scene).countP Command.isSetGraphicsState = 2 := by
  have h0 : pre.countP Command.isSetGraphicsState = 0 := by
    rw [List.countP_eq_zero]
    intro c hc
    simp [hpre c hc]
  have h1 : (recordedPass scene).countP Command.isSetGraphicsState = 0 := by
    rw [List.countP_eq_zero]
    intro c hc
    simp [recordedPass_plain scene c hc]
  simp [frameCommands, List.countP_append, List.countP_cons, h0, h1,
    Command.isSetGraphicsState]

theorem countP_isDraw_frame (pre : CommandList) (st1 st2 : GraphicsState)
    (scene : Scene) (hpre : ∀ c ∈ pre, c.isDraw = false) :
    (frameCommands pre st1 st2 scene).countP Command.isDraw =
      2 * (scene.meshInstances.map fun inst => inst.mesh.geometries.length).sum := by
  have h0 : pre.countP Command.isDraw = 0 := by
    rw [List.countP_eq_zero]
    intro c hc
    simp [hpre c hc]
  simp only [frameCommands, List.countP_append, List.countP_cons, h0, recordedPass,
    countP_isDraw_passCommands, Command.isDraw]
  simp
  omega

theorem ensureDepthBuffer_log (s : BindlessRendering) (fb : IFramebuffer) :
    pipelineCreations (ensureDepthBuffer s fb).device.log
      = pipelineCreations s.device.log ∧
    executedLists (ensureDepthBuffer s fb).device.log
      = executedLists s.device.log := by
  unfold ensureDepthBuffer
  cases h : s.m_DepthBuffer <;>
    simp [pipelineCreations, executedLists, Device.createTexture,
      DeviceCall.isCreateGraphicsPipeline]

theorem ensureFramebuffer_log (s s1 : BindlessRendering) (fb : IFramebuffer)
    (count idx : Nat) (e : ensureFramebuffer s fb count idx = some s1) :
    pipelineCreations s1.device.log = pipelineCreations s.device.log ∧
    executedLists s1.device.log = executedLists s.device.log := by
  unfold ensureFramebuffer at e
  simp only [] at e
  split at e
  · cases e
  · cases e; exact ⟨rfl, rfl⟩
  · cases e
    simp [pipelineCreations, executedLists, Device.createFramebuffer,
      DeviceCall.isCreateGraphicsPipeline]

theorem ensureForwardPipeline_log (s s2 : BindlessRendering) (idx : Nat)
    (fp : ForwardPass) (h : s.m_ForwardPass = some fp)
    (e : ensureForwardPipeline s idx = some s2) :
    ∃ fp2, s2.m_ForwardPass = some fp2 ∧
      forwardPipelineDesc fp2 s2.m_BindlessLayout
        = forwardPipelineDesc fp s.m_BindlessLayout ∧
      (fp.renderingPipeline.isSome = true → fp2 = fp) ∧
      executedLists s2.device.log = executedLists s.device.log ∧
      pipelineCreations s2.device.log = pipelineCreations s.device.log ++
        createdFor fp.renderingPipeline
          (forwardPipelineDesc fp s.m_BindlessLayout) (framebufferAt s idx)
          fp2.renderingPipeline := by
  unfold ensureForwardPipeline at e
  rw [h] at e
  dsimp only at e
  cases hp : fp.renderingPipeline with
  | some p =>
    rw [hp] at e
    cases e
    exact ⟨fp, h, rfl, fun _ => rfl, rfl, by simp [createdFor, hp]⟩
  | none =>
    rw [hp] at e
    cases e
    refine ⟨_, rfl, rfl, by simp, ?_, ?_⟩
    · simp [executedLists, Device.createGraphicsPipeline]
    · simp [pipelineCreations, createdFor, Device.createGraphicsPipeline,
        DeviceCall.isCreateGraphicsPipeline]

theorem ensureGeometryPipeline_log (s s3 : BindlessRendering) (idx : Nat)
    (gp : GeometryPass) (h : s.m_GeometryPass = some gp)
    (e : ensureGeometryPipeline s idx = some s3) :
    ∃ gp3, s3.m_GeometryPass = some gp3 ∧
      geometryPipelineDesc gp3 s3.m_BindlessLayout
        = geometryPipelineDesc gp s.m_BindlessLayout ∧
      (gp.renderingPipeline.isSome = true → gp3 = gp) ∧
      executedLists s3.device.log = executedLists s.device.log ∧
      pipelineCreations s3.device.log = pipelineCreations s.device.log ++
        createdFor gp.renderingPipeline
          (geometryPipelineDesc gp s.m_BindlessLayout) (framebufferAt s idx)
          gp3.renderingPipeline := by
  unfold ensureGeometryPipeline at e
  rw [h] at e
  dsimp only at e
  cases hp : gp.renderingPipeline with
  | some p =>
    rw [hp] at e
    cases e
    exact ⟨gp, h, rfl, fun _ => rfl, rfl, by simp [createdFor, hp]⟩
  | none =>
    rw [hp] at e
    cases e
    refine ⟨_, rfl, rfl, by simp, ?_, ?_⟩
    · simp [executedLists, Device.createGraphicsPipeline]
    · simp [pipelineCreations, createdFor, Device.createGraphicsPipeline,
        DeviceCall.isCreateGraphicsPipeline]

/-- `Render` as the chain of its steps. -/
theorem Render_chain (s : BindlessRendering) (fb : IFramebuffer)
    (count idx : Nat) (s1 s2 s3 : BindlessRendering) (cl : CommandList)
    (e1 : ensureFramebuffer (ensureDepthBuffer s fb) fb count idx = some s1)
    (e2 : ensureForwardPipeline s1 idx = some s2)
    (e3 : ensureGeometryPipeline s2 idx = some s3)
    (e4 : recordFrame { s3 with m_View := ⟨fb.width, fb.height⟩ } fb idx = some cl) :
    Render s fb count idx = some { s3 with
      m_View := ⟨fb.width, fb.height⟩,
      device := s3.device.executeCommandList cl } := by
  unfold Render
  rw [e1, Option.some_bind, e2, Option.some_bind, e3, Option.some_bind]
  simp only []
  rw [e4, Option.some_bind]

/-- The device log and the passes after one `Render` of an initialized
application: the frame is executed with the pipelines of the passes, and a
pipeline is created exactly for each pass whose pipeline was null. -/
theorem Render_log (s : BindlessRendering) (fb : IFramebuffer)
    (count idx : Nat) (scene : Scene) (fp0 : ForwardPass) (gp0 : GeometryPass)
    (h : Initialized s scene) (hidx : idx < count)
    (hf0 : s.m_ForwardPass = some fp0) (hg0 : s.m_GeometryPass = some gp0) :
    ∃ s1 fp1 gp1 cl, Render s fb count idx = some s1 ∧
      Initialized s1 scene ∧
      s1.m_ForwardPass = some fp1 ∧ s1.m_GeometryPass = some gp1 ∧
      fp1.renderingPipeline.isSome = true ∧ gp1.renderingPipeline.isSome = true ∧
      (fp0.renderingPipeline.isSome = true → fp1 = fp0) ∧
      (gp0.renderingPipeline.isSome = true → gp1 = gp0) ∧
      executedLists s1.device.log = executedLists s.device.log ++ [cl] ∧
      (graphicsStates cl).map GraphicsState.pipeline
        = [fp1.renderingPipeline, gp1.renderingPipeline] ∧
      pipelineCreations s1.device.log = pipelineCreations s.device.log ++
        createdFor fp0.renderingPipeline
          (forwardPipelineDesc fp1 s1.m_BindlessLayout) (framebufferAt s1 idx)
          fp1.renderingPipeline ++
        createdFor gp0.renderingPipeline
          (geometryPipelineDesc gp1 s1.m_BindlessLayout) (framebufferAt s1 idx)
          gp1.renderingPipeline := by
  obtain ⟨hs, -, -, hc, ht⟩ := h
  obtain ⟨c0, hc⟩ := Option.isSome_iff_exists.mp hc
  obtain ⟨t0, ht⟩ := Option.isSome_iff_exists.mp ht
  obtain ⟨dw, df, dg, -, -⟩ := ensureDepthBuffer_spec s fb
  obtain ⟨dl1, dl2⟩ := ensureDepthBuffer_log s fb
  obtain ⟨s1, e1, w1, f1, g1, -, -⟩ :=
    ensureFramebuffer_spec (ensureDepthBuffer s fb) fb count idx hidx
  obtain ⟨l1a, l1b⟩ := ensureFramebuffer_log _ s1 fb count idx e1
  have hf1 : s1.m_ForwardPass = some fp0 := by rw [f1, df, hf0]
  obtain ⟨s2, fp2, e2, f2, p2, -, w2, g2, -, b2⟩ :=
    ensureForwardPipeline_spec s1 idx fp0 hf1
  obtain ⟨fp2', f2', fd2, fk2, l2a, l2b⟩ :=
    ensureForwardPipeline_log s1 s2 idx fp0 hf1 e2
  have hg2 : s2.m_GeometryPass = some gp0 := by rw [g2, g1, dg, hg0]
  obtain ⟨s3, gp3, e3, g3, p3, -, w3, f3, -, b3⟩ :=
    ensureGeometryPipeline_spec s2 idx gp0 hg2
  obtain ⟨gp3', g3', gd3, gk3, l3a, l3b⟩ :=
    ensureGeometryPipeline_log s2 s3 idx gp0 hg2 e3
  have efp : fp2' = fp2 := Option.some.inj (f2'.symm.trans f2)
  have egp : gp3' = gp3 := Option.some.inj (g3'.symm.trans g3)
  subst efp egp
  rw [wiring_eq_iff] at dw w1 w2 w3
  have hscene : s3.m_Scene = some scene := by
    rw [w3.1, w2.1, w1.1, dw.1, hs]
  have hcl : s3.m_CommandList = some c0 := by
    rw [w3.2.1, w2.2.1, w1.2.1, dw.2.1, hc]
  have htab : s3.m_DescriptorTableManager = some t0 := by
    rw [w3.2.2.1, w2.2.2.1, w1.2.2.1, dw.2.2.1, ht]
  have hfp : s3.m_ForwardPass = some fp2' := by rw [f3, f2]
  have hb32 : s3.m_BindlessLayout = s2.m_BindlessLayout := w3.2.2.2.2.1
  have hfb2 : framebufferAt s2 idx = framebufferAt s1 idx := by
    simp only [framebufferAt, b2]
  have hfb3 : framebufferAt s3 idx = framebufferAt s2 idx := by
    simp only [framebufferAt, b3]
  obtain ⟨cl, hcle, hrec⟩ : ∃ cl, (graphicsStates cl).map GraphicsState.pipeline
        = [fp2'.renderingPipeline, gp3'.renderingPipeline] ∧
      recordFrame { s3 with m_View := ⟨fb.width, fb.height⟩ } fb idx = some cl := by
    refine ⟨_, ?_, recordFrame_spec
      { s3 with m_View := ⟨fb.width, fb.height⟩ } fb idx scene fp2' gp3' c0 t0
      hcl hfp g3 htab hscene⟩
    rw [graphicsStates_frame _ _ _ _ (fun c hc => (framePrologue_plain fb _ c hc).1)]
    rfl
  have hR := Render_chain s fb count idx s1 s2 s3 cl e1 e2 e3 hrec
  refine ⟨_, fp2', gp3', cl, hR, ?_, hfp, g3, p2, p3, fk2, gk3, ?_, hcle, ?_⟩
  · exact ⟨hscene, by simp [hfp], by simp [g3], by simp [hcl], by simp [htab]⟩
  · show executedLists (s3.device.log ++ [DeviceCall.executeCommandList cl]) = _
    rw [← dl2, ← l1b, ← l2a, ← l3a]
    simp [executedLists, List.filterMap_append]
  · show pipelineCreations (s3.device.log ++ [DeviceCall.executeCommandList cl]) = _
    have hx : ∀ (log : List DeviceCall) (x : CommandList),
        pipelineCreations (log ++ [DeviceCall.executeCommandList x])
          = pipelineCreations log := by
      intro log x
      simp [pipelineCreations, DeviceCall.isCreateGraphicsPipeline]
    rw [hx, l3b, l2b, l1a, dl1]
    show _ = pipelineCreations s.device.log ++
        createdFor fp0.renderingPipeline
          (forwardPipelineDesc fp2' s3.m_BindlessLayout) (framebufferAt s3 idx)
          fp2'.renderingPipeline ++
        createdFor gp0.renderingPipeline
          (geometryPipelineDesc gp3' s3.m_BindlessLayout) (framebufferAt s3 idx)
          gp3'.renderingPipeline
    rw [gd3, hb32, fd2, hfb3, hfb2]

theorem runCalls_append (s : BindlessRendering) (a b : List AppCall) :
    runCalls s (a ++ b) = (runCalls s a).bind fun s1 => runCalls s1 b := by
  induction a generalizing s with
  | nil => simp [runCalls]
  | cons c a ih =>
    simp only [List.cons_append, runCalls]
    cases h : c.run s with
    | none => simp
    | some s1 => simp [ih]

theorem runCalls_resizes (k : Nat) :
    ∀ s : BindlessRendering,
      ∃ sR, runCalls s (List.replicate k AppCall.backBufferResizing) = some sR ∧
        sR.device = s.device ∧ sR.m_ForwardPass = s.m_ForwardPass ∧
        sR.m_GeometryPass = s.m_GeometryPass ∧
        ∀ scene, Initialized s scene → Initialized sR scene := by
  induction k with
  | zero => intro s; exact ⟨s, rfl, rfl, rfl, rfl, fun _ h => h⟩
  | succ k ih =>
    intro s
    obtain ⟨sR, hr, hd, hf, hg, hi⟩ := ih (BackBufferResizing s)
    refine ⟨sR, ?_, hd, hf, hg, fun scene h => hi scene h⟩
    simp only [List.replicate_succ, runCalls, AppCall.run, Option.some_bind]
    exact hr

theorem Render_settled (s : BindlessRendering) (fb : IFramebuffer)
    (count idx : Nat) (scene : Scene) (fp : ForwardPass) (gp : GeometryPass)
    (L : List DeviceCall) (h : Settled s scene fp gp L) (hidx : idx < count) :
    ∃ s1, Render s fb count idx = some s1 ∧ Settled s1 scene fp gp L := by
  obtain ⟨hi, hf, hg, pf, pg, hL, hE⟩ := h
  obtain ⟨s1, fp1, gp1, cl, hR, hi1, hf1, hg1, -, -, kf, kg, hex, hst, hpc⟩ :=
    Render_log s fb count idx scene fp gp hi hidx hf hg
  have ef := kf pf
  have eg := kg pg
  subst ef eg
  obtain ⟨p, hp⟩ := Option.isSome_iff_exists.mp pf
  obtain ⟨q, hq⟩ := Option.isSome_iff_exists.mp pg
  refine ⟨s1, hR, hi1, hf1, hg1, pf, pg, ?_, ?_⟩
  · rw [hpc, hL, hp, hq]
    simp [createdFor]
  · intro c hc
    rw [hex, List.mem_append, List.mem_singleton] at hc
    rcases hc with hc | hc
    · exact hE c hc
    · rw [hc]; exact hst

theorem runCalls_settled (scene : Scene) (fp : ForwardPass) (gp : GeometryPass)
    (L : List DeviceCall) :
    ∀ (calls : List AppCall) (s : BindlessRendering),
      (∀ c ∈ calls, c.valid) → Settled s scene fp gp L →
      ∃ sB, runCalls s calls = some sB ∧ Settled sB scene fp gp L := by
  intro calls
  induction calls with
  | nil => intro s _ h; exact ⟨s, rfl, h⟩
  | cons c calls ih =>
    intro s hv h
    have hc := hv c (List.mem_cons_self _ _)
    have hrest : ∀ d ∈ calls, d.valid := fun d hd => hv d (List.mem_cons_of_mem _ hd)
    cases c with
    | render fb count idx =>
      obtain ⟨s1, hR, h1⟩ := Render_settled s fb count idx scene fp gp L h hc
      obtain ⟨sB, hB, hS⟩ := ih s1 hrest h1
      exact ⟨sB, by simp only [runCalls, AppCall.run, hR, Option.some_bind, hB], hS⟩
    | backBufferResizing =>
      have h1 : Settled (BackBufferResizing s) scene fp gp L := h
      obtain ⟨sB, hB, hS⟩ := ih _ hrest h1
      exact ⟨sB, by simp only [runCalls, AppCall.run, Option.some_bind, hB], hS⟩

theorem Init_spec (d : Device) (scene : Scene) :
    ∃ s0, Init (BindlessRendering.new d) scene true = some (true, s0) ∧
      Initialized s0 scene ∧ s0.m_DepthBuffer = none ∧ s0.m_Framebuffers = [] ∧
      s0.device.log = d.log ∧
      (∃ fp gp, s0.m_ForwardPass = some fp ∧ fp.renderingPipeline = none ∧
        s0.m_GeometryPass = some gp ∧ gp.renderingPipeline = none) := by
  simp [Init, LoadScene, BindlessRendering.new, Initialized, ForwardPass.create,
    GeometryPass.create, Device.fresh]

theorem startedApp_spec (scene : Scene) :
    Init (BindlessRendering.new ⟨16, []⟩) scene true = some (true, startedApp scene) ∧
      Initialized (startedApp scene) scene := by
  obtain ⟨s0, h0, hi, -⟩ := Init_spec ⟨16, []⟩ scene
  have : startedApp scene = s0 := by simp [startedApp, h0]
  rw [this]
  exact ⟨h0, hi⟩

theorem hugeMesh_getElem? : hugeMesh.geometries[2 ^ 31]? = some ⟨3⟩ := by
  show (List.replicate (2 ^ 31 + 1) (⟨3⟩ : MeshGeometry))[2 ^ 31]? = some ⟨3⟩
  rw [List.getElem?_replicate, if_pos (by norm_num)]

theorem claimedPass_hugeScene_mem :
    Command.setPushConstants ⟨0, 2 ^ 31⟩ ∈ claimedPass hugeScene := by
  unfold claimedPass passCommands
  rw [List.mem_flatMap]
  refine ⟨⟨hugeMesh, 0⟩, List.mem_singleton.mpr rfl, ?_⟩
  rw [List.mem_flatMap]
  refine ⟨(2 ^ 31, ⟨3⟩), List.mk_mem_enum_iff_getElem?.mpr hugeMesh_getElem?, ?_⟩
  simp [geometryCommands]

theorem recordedPass_push_lt (scene : Scene) (p : int2)
    (h : Command.setPushConstants p ∈ recordedPass scene) : p.y < 2 ^ 31 := by
  obtain ⟨inst, -, i, g, -, hc | hc⟩ := mem_passCommands h
  · injection hc with hp
    rw [hp]
    exact intOfSize_lt i
  · cases hc

theorem recordedPass_hugeScene_ne : recordedPass hugeScene ≠ claimedPass hugeScene := by
  intro h
  have hm := claimedPass_hugeScene_mem
  rw [← h] at hm
  have := recordedPass_push_lt hugeScene _ hm
  norm_num at this

theorem sizeofConstantBufferEntry_eq : sizeofConstantBufferEntry = 256 := by decide

theorem viewBufferRanges_get? (n : Nat) (m : Nat) :
    ∀ i j : Nat, n - i = m →
      (viewBufferRanges n i).get? j =
        if i + j < n then some (viewBufferRange (i + j)) else none := by
  induction m with
  | zero =>
    intro i j h
    have hi : ¬ i < n := by omega
    rw [viewBufferRanges, if_neg hi, if_neg (by omega)]
    rfl
  | succ m ih =>
    intro i j h
    have hi : i < n := by omega
    rw [viewBufferRanges, if_pos hi]
    cases j with
    | zero => simp [hi]
    | succ j =>
      rw [List.get?_cons_succ, ih (i + 1) j (by omega)]
      have e : i + 1 + j = i + (j + 1) := by omega
      rw [e]

theorem mem_vectorResize {α : Type} (v : List (Option α)) (n : Nat) (a : α)
    (h : some a ∈ vectorResize v n) : some a ∈ v := by
  unfold vectorResize at h
  rcases List.mem_append.mp h with h1 | h1
  · exact List.mem_of_mem_take h1
  · exact absurd (List.eq_of_mem_replicate h1) (by simp)

theorem ensureDepthBuffer_inv (s : BindlessRendering) (fb : IFramebuffer)
    (h : DepthCacheInv s) : DepthCacheInv (ensureDepthBuffer s fb) := by
  unfold ensureDepthBuffer
  cases hd : s.m_DepthBuffer with
  | some d => simpa [hd] using h
  | none =>
    intro f hf
    obtain ⟨d, hd1, -⟩ := h f hf
    rw [hd] at hd1
    cases hd1

theorem ensureDepthBuffer_created (s : BindlessRendering) (fb : IFramebuffer)
    (h : s.m_DepthBuffer = none) :
    (ensureDepthBuffer s fb).m_DepthBuffer
      = some ⟨s.device.nextHandle, fb.width, fb.height⟩ ∧
    (ensureDepthBuffer s fb).device.log = s.device.log ++
      [DeviceCall.createTexture fb.width fb.height s.device.nextHandle] := by
  unfold ensureDepthBuffer
  rw [h]
  exact ⟨rfl, rfl⟩

theorem ensureFramebuffer_inv (s s1 : BindlessRendering) (fb : IFramebuffer)
    (count idx : Nat) (e : ensureFramebuffer s fb count idx = some s1)
    (hd : s.m_DepthBuffer.isSome = true) (h : DepthCacheInv s) :
    DepthCacheInv s1 := by
  obtain ⟨d, hd⟩ := Option.isSome_iff_exists.mp hd
  unfold ensureFramebuffer at e
  simp only [] at e
  split at e
  · cases e
  · cases e
    intro f hf
    exact h f (mem_vectorResize _ _ f hf)
  · cases e
    intro f hf
    rcases List.mem_or_eq_of_mem_set hf with h1 | h1
    · exact h f (mem_vectorResize _ _ f h1)
    · refine ⟨d, hd, ?_⟩
      have hf1 : f = (s.device.createFramebuffer
          ⟨fb.colorAttachment0, s.m_DepthBuffer.map Texture.handle⟩).1 :=
        Option.some.inj h1
      rw [hf1, hd]
      rfl

/-- The depth buffer and the framebuffer cache across one `Render` of an
initialized application. -/
theorem Render_cache (s : BindlessRendering) (fb : IFramebuffer)
    (count idx : Nat) (scene : Scene)
    (h : Initialized s scene) (hidx : idx < count) (hinv : DepthCacheInv s) :
    ∃ s1, Render s fb count idx = some s1 ∧ Initialized s1 scene ∧
      DepthCacheInv s1 ∧
      s1.m_DepthBuffer = (ensureDepthBuffer s fb).m_DepthBuffer ∧
      s1.m_DepthBuffer.isSome = true ∧
      (framebufferAt s1 idx).isSome = true ∧
      s1.m_Framebuffers.length = count := by
  obtain ⟨hs, hf, hg, hc, ht⟩ := h
  obtain ⟨fp0, hf⟩ := Option.isSome_iff_exists.mp hf
  obtain ⟨gp0, hg⟩ := Option.isSome_iff_exists.mp hg
  obtain ⟨c0, hc⟩ := Option.isSome_iff_exists.mp hc
  obtain ⟨t0, ht⟩ := Option.isSome_iff_exists.mp ht
  obtain ⟨dw, df, dg, -, dd⟩ := ensureDepthBuffer_spec s fb
  have i0 := ensureDepthBuffer_inv s fb hinv
  obtain ⟨s1, e1, w1, f1, g1, d1, b1⟩ :=
    ensureFramebuffer_spec (ensureDepthBuffer s fb) fb count idx hidx
  have i1 := ensureFramebuffer_inv _ s1 fb count idx e1 dd i0
  have len1 : s1.m_Framebuffers.length = count := by
    have e := e1
    unfold ensureFramebuffer at e
    simp only [] at e
    split at e
    · cases e
    · cases e; exact vectorResize_length _ _
    · cases e
      simp only [List.length_set]
      exact vectorResize_length _ _
  obtain ⟨s2, fp2, e2, f2, -, -, w2, g2, d2, b2⟩ :=
    ensureForwardPipeline_spec s1 idx fp0 (by rw [f1, df, hf])
  obtain ⟨s3, gp3, e3, g3, -, -, w3, f3, d3, b3⟩ :=
    ensureGeometryPipeline_spec s2 idx gp0 (by rw [g2, g1, dg, hg])
  rw [wiring_eq_iff] at dw w1 w2 w3
  have hscene : s3.m_Scene = some scene := by
    rw [w3.1, w2.1, w1.1, dw.1, hs]
  have hcl : s3.m_CommandList = some c0 := by
    rw [w3.2.1, w2.2.1, w1.2.1, dw.2.1, hc]
  have htab : s3.m_DescriptorTableManager = some t0 := by
    rw [w3.2.2.1, w2.2.2.1, w1.2.2.1, dw.2.2.1, ht]
  have hfp : s3.m_ForwardPass = some fp2 := by rw [f3, f2]
  have hdepth : s3.m_DepthBuffer = (ensureDepthBuffer s fb).m_DepthBuffer := by
    rw [d3, d2, d1]
  have hfbs : s3.m_Framebuffers = s1.m_Framebuffers := by rw [b3, b2]
  have hrec := recordFrame_spec
    { s3 with m_View := ⟨fb.width, fb.height⟩ } fb idx scene fp2 gp3 c0 t0
    hcl hfp g3 htab hscene
  have hR := Render_chain s fb count idx s1 s2 s3 _ e1 e2 e3 hrec
  refine ⟨_, hR, ?_, ?_, hdepth, ?_, ?_, ?_⟩
  · exact ⟨hscene, by simp [hfp], by simp [g3], by simp [hcl], by simp [htab]⟩
  · intro f hf'
    have hf1 : some f ∈ s1.m_Framebuffers := by rw [← hfbs]; exact hf'
    obtain ⟨d, hd, ha⟩ := i1 f hf1
    exact ⟨d, by rw [← hd]; exact hdepth.trans d1.symm, ha⟩
  · show s3.m_DepthBuffer.isSome = true
    rw [hdepth]; exact dd
  · show (framebufferAt s3 idx).isSome = true
    have : framebufferAt s3 idx = framebufferAt s1 idx := by
      simp only [framebufferAt, hfbs]
    rw [this]; exact b1
  · show s3.m_Framebuffers.length = count
    rw [hfbs]; exact len1

theorem runCalls_cache (scene : Scene) :
    ∀ (calls : List AppCall) (s : BindlessRendering),
      (∀ c ∈ calls, c.valid) → Initialized s scene → DepthCacheInv s →
      ∃ sB, runCalls s calls = some sB ∧ Initialized sB scene ∧
        DepthCacheInv sB := by
  intro calls
  induction calls with
  | nil => intro s _ hi hv; exact ⟨s, rfl, hi, hv⟩
  | cons c calls ih =>
    intro s hv hi hinv
    have hc := hv c (List.mem_cons_self _ _)
    have hrest : ∀ d ∈ calls, d.valid := fun d hd => hv d (List.mem_cons_of_mem _ hd)
    cases c with
    | render fb count idx =>
      obtain ⟨s1, hR, hi1, hinv1, -⟩ := Render_cache s fb count idx scene hi hc hinv
      obtain ⟨sB, hB, hS⟩ := ih s1 hrest hi1 hinv1
      exact ⟨sB, by simp only [runCalls, AppCall.run, hR, Option.some_bind, hB], hS⟩
    | backBufferResizing =>
      have hi1 : Initialized (BackBufferResizing s) scene := hi
      have hinv1 : DepthCacheInv (BackBufferResizing s) := by
        intro f hf
        simp [BackBufferResizing] at hf
      obtain ⟨sB, hB, hS⟩ := ih _ hrest hi1 hinv1
      exact ⟨sB, by simp only [runCalls, AppCall.run, Option.some_bind, hB], hS⟩

theorem framebufferAt_mem (s : BindlessRendering) (idx : Nat)
    (h : (framebufferAt s idx).isSome = true) :
    ∃ f, s.m_Framebuffers.get? idx = some (some f) ∧ some f ∈ s.m_Framebuffers := by
  unfold framebufferAt at h
  cases hg : s.m_Framebuffers.get? idx with
  | none => rw [hg] at h; cases h
  | some o =>
    cases o with
    | none => rw [hg] at h; cases h
    | some f => exact ⟨f, rfl, List.get?_mem hg⟩

/-! ## The claims of the specification -/

/-- C1 (as amended): in one `Render` of an initialized application, the
commands recorded between the first and the second `setGraphicsState` are
exactly, for each mesh instance in the order of `GetMeshInstances()` and each
geometry index `i` in ascending order, one `setPushConstants` with the pair
(instance index, `int(i)`) followed by one `draw` with `instanceCount = 1` and
`vertexCount = numIndices` of geometry `i`, and nothing else; `int(i)` is `i`
itself whenever no mesh has more than `2^31` geometries. -/
theorem C1_forward_pass_commands (s : BindlessRendering) (fb : IFramebuffer)
    (count idx : Nat) (scene : Scene)
    (h : Initialized s scene) (hidx : idx < count) :
    ∃ s1 cl, Render s fb count idx = some s1 ∧
      lastExecuted s1.device.log = some cl ∧
      firstPassCommands cl = recordedPass scene ∧
      (scene.indicesFitInt → firstPassCommands cl = claimedPass scene) := by
  obtain ⟨s1, fp, gp, table, hR, -, -, -, -, -, -, -, -, -, hcl⟩ :=
    Render_spec s fb count idx scene h hidx
  have hfirst := firstPassCommands_frame (framePrologue fb s1)
    ⟨fp.renderingPipeline, framebufferAt s1 idx, [fp.bindingSet, some table], s1.m_View⟩
    ⟨gp.renderingPipeline, framebufferAt s1 idx, [gp.bindingSet, some table], s1.m_View⟩
    scene (fun c hc => (framePrologue_plain fb s1 c hc).1)
  exact ⟨s1, _, hR, hcl, hfirst, fun hfit => by
    rw [hfirst, recordedPass_eq_claimedPass scene hfit]⟩

/-- C1, witness: the sample scene after `Init`, back buffer 0 of 2. -/
theorem C1_forward_pass_commands_witness :
    Initialized (startedApp sampleScene) sampleScene ∧ 0 < 2 ∧
    sampleScene.indicesFitInt ∧
    ∃ s1 cl, Render (startedApp sampleScene) sampleFramebuffer 2 0 = some s1 ∧
      lastExecuted s1.device.log = some cl ∧
      firstPassCommands cl =
        [Command.setPushConstants ⟨0, 0⟩, Command.draw ⟨6, 1⟩,
         Command.setPushConstants ⟨0, 1⟩, Command.draw ⟨36, 1⟩,
         Command.setPushConstants ⟨1, 0⟩, Command.draw ⟨3, 1⟩] := by
  have hi : Initialized (startedApp sampleScene) sampleScene := by decide
  have hfit : sampleScene.indicesFitInt := by
    intro inst hinst
    simp only [sampleScene, List.mem_cons, List.mem_singleton, List.not_mem_nil,
      or_false] at hinst
    rcases hinst with h | h <;> simp [h]
  obtain ⟨s1, cl, hR, hcl, -, hc⟩ :=
    C1_forward_pass_commands (startedApp sampleScene) sampleFramebuffer 2 0
      sampleScene hi (by decide)
  exact ⟨hi, by decide, hfit, s1, cl, hR, hcl, by rw [hc hfit]; rfl⟩

/-- C1, counterexample: for a mesh of `2^31 + 1` geometries the forward pass
does not record the pair (instance index, `i`) for every geometry index: the
last index `2^31` is pushed as `int(2^31)`, which is negative. -/
theorem C1_counterexample :
    Init (BindlessRendering.new ⟨16, []⟩) hugeScene true
      = some (true, startedApp hugeScene) ∧
    ∃ s1 cl, Render (startedApp hugeScene) sampleFramebuffer 2 0 = some s1 ∧
      lastExecuted s1.device.log = some cl ∧
      firstPassCommands cl ≠ claimedPass hugeScene := by
  obtain ⟨h0, hi⟩ := startedApp_spec hugeScene
  obtain ⟨s1, fp, gp, table, hR, -, -, -, -, -, -, -, -, -, hcl⟩ :=
    Render_spec (startedApp hugeScene) sampleFramebuffer 2 0 hugeScene hi (by decide)
  have hfirst := firstPassCommands_frame (framePrologue sampleFramebuffer s1)
    ⟨fp.renderingPipeline, framebufferAt s1 0, [fp.bindingSet, some table], s1.m_View⟩
    ⟨gp.renderingPipeline, framebufferAt s1 0, [gp.bindingSet, some table], s1.m_View⟩
    hugeScene (fun c hc => (framePrologue_plain sampleFramebuffer s1 c hc).1)
  exact ⟨h0, s1, _, hR, hcl, by rw [hfirst]; exact recordedPass_hugeScene_ne⟩

/-- C2: in one `Render`, the `setPushConstants`/`draw` commands recorded by the
geometry pass loop are the same sequence, values included, as those recorded
by the forward pass loop; the two graphics states have the same framebuffer,
the same viewport and the same bindings after the first, so the passes differ
only in the pipeline and the binding set. -/
theorem C2_passes_record_same_commands (s : BindlessRendering)
    (fb : IFramebuffer) (count idx : Nat) (scene : Scene)
    (h : Initialized s scene) (hidx : idx < count) :
    ∃ s1 cl, Render s fb count idx = some s1 ∧
      lastExecuted s1.device.log = some cl ∧
      (secondPassCommands cl).filter Command.isPushOrDraw =
        (firstPassCommands cl).filter Command.isPushOrDraw ∧
      (firstPassCommands cl).filter Command.isPushOrDraw = recordedPass scene ∧
      secondPassCommands cl = firstPassCommands cl ∧
      ∃ st1 st2, graphicsStates cl = [st1, st2] ∧
        st2.framebuffer = st1.framebuffer ∧ st2.viewport = st1.viewport ∧
        st2.bindings.drop 1 = st1.bindings.drop 1 := by
  obtain ⟨s1, fp, gp, table, hR, -, -, -, -, -, -, -, -, -, hcl⟩ :=
    Render_spec s fb count idx scene h hidx
  have hpre : ∀ c ∈ framePrologue fb s1, c.isSetGraphicsState = false :=
    fun c hc => (framePrologue_plain fb s1 c hc).1
  have hfirst := firstPassCommands_frame (framePrologue fb s1)
    ⟨fp.renderingPipeline, framebufferAt s1 idx, [fp.bindingSet, some table], s1.m_View⟩
    ⟨gp.renderingPipeline, framebufferAt s1 idx, [gp.bindingSet, some table], s1.m_View⟩
    scene hpre
  have hsecond := secondPassCommands_frame (framePrologue fb s1)
    ⟨fp.renderingPipeline, framebufferAt s1 idx, [fp.bindingSet, some table], s1.m_View⟩
    ⟨gp.renderingPipeline, framebufferAt s1 idx, [gp.bindingSet, some table], s1.m_View⟩
    scene hpre
  have hstates := graphicsStates_frame (framePrologue fb s1)
    ⟨fp.renderingPipeline, framebufferAt s1 idx, [fp.bindingSet, some table], s1.m_View⟩
    ⟨gp.renderingPipeline, framebufferAt s1 idx, [gp.bindingSet, some table], s1.m_View⟩
    scene hpre
  refine ⟨s1, _, hR, hcl, by rw [hfirst, hsecond], ?_, by rw [hfirst, hsecond],
    _, _, hstates, rfl, rfl, rfl⟩
  rw [hfirst]
  exact passCommands_filter_pushOrDraw intOfSize scene

/-- C2, witness: the sample scene after `Init`, back buffer 1 of 3. -/
theorem C2_passes_record_same_commands_witness :
    Initialized (startedApp sampleScene) sampleScene ∧ 1 < 3 ∧
    ∃ s1 cl, Render (startedApp sampleScene) sampleFramebuffer 3 1 = some s1 ∧
      lastExecuted s1.device.log = some cl ∧
      (secondPassCommands cl).filter Command.isPushOrDraw =
        (firstPassCommands cl).filter Command.isPushOrDraw ∧
      (firstPassCommands cl).filter Command.isPushOrDraw = recordedPass sampleScene ∧
      secondPassCommands cl = firstPassCommands cl ∧
      ∃ st1 st2, graphicsStates cl = [st1, st2] ∧
        st2.framebuffer = st1.framebuffer ∧ st2.viewport = st1.viewport ∧
        st2.bindings.drop 1 = st1.bindings.drop 1 :=
  ⟨by decide, by decide,
    C2_passes_record_same_commands (startedApp sampleScene) sampleFramebuffer 3 1
      sampleScene (by decide) (by decide)⟩

/-- C3: one `Render` records exactly two `setGraphicsState` commands, the
first with the forward pass's pipeline and binding set, the second with the
geometry pass's, both with the framebuffer `m_Framebuffers[fbindex]`, the
view's viewport state and the bindless descriptor table as second binding,
all non-null; the recorded list is the prologue (without any draw), the first
state, the draws of the forward loop, the second state, and the draws of the
geometry loop, in this order. -/
theorem C3_two_render_passes (s : BindlessRendering) (fb : IFramebuffer)
    (count idx : Nat) (scene : Scene)
    (h : Initialized s scene) (hidx : idx < count) :
    ∃ s1 cl fp gp table st1 st2, Render s fb count idx = some s1 ∧
      lastExecuted s1.device.log = some cl ∧
      s1.m_ForwardPass = some fp ∧ s1.m_GeometryPass = some gp ∧
      s1.m_DescriptorTableManager = some table ∧
      st1 = ⟨fp.renderingPipeline, framebufferAt s1 idx,
              [fp.bindingSet, some table], s1.m_View⟩ ∧
      st2 = ⟨gp.renderingPipeline, framebufferAt s1 idx,
              [gp.bindingSet, some table], s1.m_View⟩ ∧
      fp.renderingPipeline.isSome = true ∧ gp.renderingPipeline.isSome = true ∧
      (framebufferAt s1 idx).isSome = true ∧
      graphicsStates cl = [st1, st2] ∧
      cl.countP Command.isSetGraphicsState = 2 ∧
      cl = untilSetGraphicsState cl ++ Command.setGraphicsState st1 ::
        (firstPassCommands cl ++ Command.setGraphicsState st2 ::
          secondPassCommands cl) ∧
      (∀ c ∈ untilSetGraphicsState cl, c.isDraw = false) ∧
      firstPassCommands cl = recordedPass scene ∧
      secondPassCommands cl = recordedPass scene := by
  obtain ⟨s1, fp, gp, table, hR, hf, hg, ht, pf, pg, pb, -, -, -, hcl⟩ :=
    Render_spec s fb count idx scene h hidx
  have hpre : ∀ c ∈ framePrologue fb s1, c.isSetGraphicsState = false :=
    fun c hc => (framePrologue_plain fb s1 c hc).1
  have hfirst := firstPassCommands_frame (framePrologue fb s1)
    ⟨fp.renderingPipeline, framebufferAt s1 idx, [fp.bindingSet, some table], s1.m_View⟩
    ⟨gp.renderingPipeline, framebufferAt s1 idx, [gp.bindingSet, some table], s1.m_View⟩
    scene hpre
  have hsecond := secondPassCommands_frame (framePrologue fb s1)
    ⟨fp.renderingPipeline, framebufferAt s1 idx, [fp.bindingSet, some table], s1.m_View⟩
    ⟨gp.renderingPipeline, framebufferAt s1 idx, [gp.bindingSet, some table], s1.m_View⟩
    scene hpre
  have hstates := graphicsStates_frame (framePrologue fb s1)
    ⟨fp.renderingPipeline, framebufferAt s1 idx, [fp.bindingSet, some table], s1.m_View⟩
    ⟨gp.renderingPipeline, framebufferAt s1 idx, [gp.bindingSet, some table], s1.m_View⟩
    scene hpre
  have huntil := untilSetGraphicsState_frame (framePrologue fb s1)
    ⟨fp.renderingPipeline, framebufferAt s1 idx, [fp.bindingSet, some table], s1.m_View⟩
    ⟨gp.renderingPipeline, framebufferAt s1 idx, [gp.bindingSet, some table], s1.m_View⟩
    scene hpre
  have hcount := countP_isSetGraphicsState_frame (framePrologue fb s1)
    ⟨fp.renderingPipeline, framebufferAt s1 idx, [fp.bindingSet, some table], s1.m_View⟩
    ⟨gp.renderingPipeline, framebufferAt s1 idx, [gp.bindingSet, some table], s1.m_View⟩
    scene hpre
  refine ⟨s1, _, fp, gp, table, _, _, hR, hcl, hf, hg, ht, rfl, rfl, pf, pg, pb,
    hstates, hcount, ?_, ?_, hfirst, hsecond⟩
  · rw [huntil, hfirst, hsecond]
    rfl
  · rw [huntil]
    exact fun c hc => (framePrologue_plain fb s1 c hc).2.1

/-- C3, witness: the sample scene after `Init`, back buffer 1 of 2. -/
theorem C3_two_render_passes_witness :
    Initialized (startedApp sampleScene) sampleScene ∧ 1 < 2 ∧
    ∃ s1 cl fp gp table st1 st2,
      Render (startedApp sampleScene) sampleFramebuffer 2 1 = some s1 ∧
      lastExecuted s1.device.log = some cl ∧
      s1.m_ForwardPass = some fp ∧ s1.m_GeometryPass = some gp ∧
      s1.m_DescriptorTableManager = some table ∧
      st1 = ⟨fp.renderingPipeline, framebufferAt s1 1,
              [fp.bindingSet, some table], s1.m_View⟩ ∧
      st2 = ⟨gp.renderingPipeline, framebufferAt s1 1,
              [gp.bindingSet, some table], s1.m_View⟩ ∧
      fp.renderingPipeline.isSome = true ∧ gp.renderingPipeline.isSome = true ∧
      (framebufferAt s1 1).isSome = true ∧
      graphicsStates cl = [st1, st2] ∧
      cl.countP Command.isSetGraphicsState = 2 ∧
      cl = untilSetGraphicsState cl ++ Command.setGraphicsState st1 ::
        (firstPassCommands cl ++ Command.setGraphicsState st2 ::
          secondPassCommands cl) ∧
      (∀ c ∈ untilSetGraphicsState cl, c.isDraw = false) ∧
      firstPassCommands cl = recordedPass sampleScene ∧
      secondPassCommands cl = recordedPass sampleScene :=
  ⟨by decide, by decide,
    C3_two_render_passes (startedApp sampleScene) sampleFramebuffer 2 1
      sampleScene (by decide) (by decide)⟩

/-- C4: after `Init`, along any sequence of `Render` and `BackBufferResizing`
calls, no pipeline exists before the first `Render`; the first `Render` calls
`createGraphicsPipeline` exactly twice, once with the forward pass's
descriptor and once with the geometry pass's; every later call, including a
`Render` that follows a `BackBufferResizing`, creates no pipeline, keeps the
two pipeline objects in the passes, and every executed frame sets exactly
these two pipelines. -/
theorem C4_pipelines_created_once (n : Nat) (scene : Scene)
    (s0 : BindlessRendering) (resizes : Nat) (fb : IFramebuffer)
    (count idx : Nat) (later : List AppCall)
    (hInit : Init (BindlessRendering.new ⟨n, []⟩) scene true = some (true, s0))
    (hidx : idx < count) (hlater : ∀ c ∈ later, c.valid) :
    ∃ sR sA sB fp gp hF hG,
      runCalls s0 (List.replicate resizes AppCall.backBufferResizing) = some sR ∧
      pipelineCreations sR.device.log = [] ∧
      Render sR fb count idx = some sA ∧
      sA.m_ForwardPass = some fp ∧ fp.renderingPipeline = some hF ∧
      sA.m_GeometryPass = some gp ∧ gp.renderingPipeline = some hG ∧
      pipelineCreations sA.device.log =
        [DeviceCall.createGraphicsPipeline
           (forwardPipelineDesc fp sA.m_BindlessLayout) (framebufferAt sA idx) hF,
         DeviceCall.createGraphicsPipeline
           (geometryPipelineDesc gp sA.m_BindlessLayout) (framebufferAt sA idx) hG] ∧
      runCalls s0 (List.replicate resizes AppCall.backBufferResizing ++
        AppCall.render fb count idx :: later) = some sB ∧
      runCalls sA later = some sB ∧
      pipelineCreations sB.device.log = pipelineCreations sA.device.log ∧
      sB.m_ForwardPass = some fp ∧ sB.m_GeometryPass = some gp ∧
      ∀ cl ∈ executedLists sB.device.log,
        (graphicsStates cl).map GraphicsState.pipeline = [some hF, some hG] := by
  obtain ⟨s0', h0, hi0, -, -, hlog0, fp0, gp0, hf0, hpf0, hg0, hpg0⟩ :=
    Init_spec ⟨n, []⟩ scene
  have e0 : s0' = s0 := by
    have := h0.symm.trans hInit
    simpa using this
  subst e0
  obtain ⟨sR, hrun, hdev, hfR, hgR, hiR⟩ := runCalls_resizes resizes s0'
  have hlogR : sR.device.log = [] := by rw [hdev, hlog0]
  obtain ⟨sA, fp1, gp1, cl, hR, hi1, hf1, hg1, pf, pg, -, -, hex, hst, hpc⟩ :=
    Render_log sR fb count idx scene fp0 gp0 (hiR scene hi0) hidx
      (hfR.trans hf0) (hgR.trans hg0)
  obtain ⟨hF, hpF⟩ := Option.isSome_iff_exists.mp pf
  obtain ⟨hG, hpG⟩ := Option.isSome_iff_exists.mp pg
  have hpcA : pipelineCreations sA.device.log =
      [DeviceCall.createGraphicsPipeline
         (forwardPipelineDesc fp1 sA.m_BindlessLayout) (framebufferAt sA idx) hF,
       DeviceCall.createGraphicsPipeline
         (geometryPipelineDesc gp1 sA.m_BindlessLayout) (framebufferAt sA idx) hG] := by
    rw [hpc, hlogR, hpf0, hpg0, hpF, hpG]
    simp [createdFor, pipelineCreations]
  have hsettled : Settled sA scene fp1 gp1 (pipelineCreations sA.device.log) := by
    refine ⟨hi1, hf1, hg1, pf, pg, rfl, ?_⟩
    intro c hc
    rw [hex, hlogR] at hc
    simp only [executedLists, List.filterMap_nil, List.nil_append,
      List.mem_singleton] at hc
    rw [hc]; exact hst
  obtain ⟨sB, hB, hiB, hfB, hgB, -, -, hLB, hEB⟩ :=
    runCalls_settled scene fp1 gp1 _ later sA hlater hsettled
  refine ⟨sR, sA, sB, fp1, gp1, hF, hG, hrun, by rw [hlogR]; rfl, hR, hf1, hpF,
    hg1, hpG, hpcA, ?_, hB, hLB, hfB, hgB, ?_⟩
  · rw [runCalls_append, hrun, Option.some_bind]
    simp only [runCalls, AppCall.run, hR, Option.some_bind, hB]
  · intro c hc
    rw [← hpF, ← hpG]
    exact hEB c hc

/-- C4, witness: `Init` on the sample scene, one resize, a first `Render`,
then a `Render`, a resize and a `Render` at another window size. -/
theorem C4_pipelines_created_once_witness :
    Init (BindlessRendering.new ⟨16, []⟩) sampleScene true
      = some (true, startedApp sampleScene) ∧
    0 < 2 ∧
    (∀ c ∈ [AppCall.render sampleFramebuffer 2 1, AppCall.backBufferResizing,
        AppCall.render ⟨800, 600, some 1⟩ 2 0], c.valid) ∧
    ∃ sR sA sB fp gp hF hG,
      runCalls (startedApp sampleScene)
        (List.replicate 1 AppCall.backBufferResizing) = some sR ∧
      pipelineCreations sR.device.log = [] ∧
      Render sR sampleFramebuffer 2 0 = some sA ∧
      sA.m_ForwardPass = some fp ∧ fp.renderingPipeline = some hF ∧
      sA.m_GeometryPass = some gp ∧ gp.renderingPipeline = some hG ∧
      pipelineCreations sA.device.log =
        [DeviceCall.createGraphicsPipeline
           (forwardPipelineDesc fp sA.m_BindlessLayout) (framebufferAt sA 0) hF,
         DeviceCall.createGraphicsPipeline
           (geometryPipelineDesc gp sA.m_BindlessLayout) (framebufferAt sA 0) hG] ∧
      runCalls (startedApp sampleScene)
        (List.replicate 1 AppCall.backBufferResizing ++
          AppCall.render sampleFramebuffer 2 0 ::
            [AppCall.render sampleFramebuffer 2 1, AppCall.backBufferResizing,
             AppCall.render ⟨800, 600, some 1⟩ 2 0]) = some sB ∧
      runCalls sA [AppCall.render sampleFramebuffer 2 1, AppCall.backBufferResizing,
        AppCall.render ⟨800, 600, some 1⟩ 2 0] = some sB ∧
      pipelineCreations sB.device.log = pipelineCreations sA.device.log ∧
      sB.m_ForwardPass = some fp ∧ sB.m_GeometryPass = some gp ∧
      ∀ cl ∈ executedLists sB.device.log,
        (graphicsStates cl).map GraphicsState.pipeline = [some hF, some hG] :=
  ⟨by decide, by decide, by decide,
    C4_pipelines_created_once 16 sampleScene (startedApp sampleScene) 1
      sampleFramebuffer 2 0 _ (by decide) (by decide) (by decide)⟩

/-- C5: the number of `draw` commands recorded by one `Render` is twice the
sum, over the mesh instances of the scene, of the number of geometries of
each instance's mesh; it is zero when no mesh has a geometry, in particular
when there is no mesh instance. -/
theorem C5_draw_count (s : BindlessRendering) (fb : IFramebuffer)
    (count idx : Nat) (scene : Scene)
    (h : Initialized s scene) (hidx : idx < count) :
    ∃ s1 cl, Render s fb count idx = some s1 ∧
      lastExecuted s1.device.log = some cl ∧
      cl.countP Command.isDraw =
        2 * (scene.meshInstances.map fun inst => inst.mesh.geometries.length).sum ∧
      ((∀ inst ∈ scene.meshInstances, inst.mesh.geometries = []) →
        cl.countP Command.isDraw = 0) := by
  obtain ⟨s1, fp, gp, table, hR, -, -, -, -, -, -, -, -, -, hcl⟩ :=
    Render_spec s fb count idx scene h hidx
  have hcount := countP_isDraw_frame (framePrologue fb s1)
    ⟨fp.renderingPipeline, framebufferAt s1 idx, [fp.bindingSet, some table], s1.m_View⟩
    ⟨gp.renderingPipeline, framebufferAt s1 idx, [gp.bindingSet, some table], s1.m_View⟩
    scene (fun c hc => (framePrologue_plain fb s1 c hc).2.1)
  refine ⟨s1, _, hR, hcl, hcount, fun hempty => ?_⟩
  rw [hcount]
  have hz : (scene.meshInstances.map fun inst => inst.mesh.geometries.length).sum = 0 := by
    apply List.sum_eq_zero
    intro x hx
    obtain ⟨inst, hinst, rfl⟩ := List.mem_map.mp hx
    rw [hempty inst hinst]
    rfl
  rw [hz]

/-- C5, witness: the sample scene (three geometries, six draws) and a scene
whose only mesh has no geometry (no draw). -/
theorem C5_draw_count_witness :
    (Initialized (startedApp sampleScene) sampleScene ∧ 0 < 2 ∧
      ∃ s1 cl, Render (startedApp sampleScene) sampleFramebuffer 2 0 = some s1 ∧
        lastExecuted s1.device.log = some cl ∧ cl.countP Command.isDraw = 6) ∧
    (Initialized (startedApp bareScene) bareScene ∧ 0 < 2 ∧
      (∀ inst ∈ bareScene.meshInstances, inst.mesh.geometries = []) ∧
      ∃ s1 cl, Render (startedApp bareScene) sampleFramebuffer 2 0 = some s1 ∧
        lastExecuted s1.device.log = some cl ∧ cl.countP Command.isDraw = 0) := by
  have hbare : ∀ inst ∈ bareScene.meshInstances, inst.mesh.geometries = [] := by
    intro inst hinst
    simp only [bareScene, List.mem_singleton] at hinst
    rw [hinst]
  obtain ⟨s1, cl, hR, hcl, hc, -⟩ :=
    C5_draw_count (startedApp sampleScene) sampleFramebuffer 2 0 sampleScene
      (by decide) (by decide)
  obtain ⟨s2, cl2, hR2, hcl2, -, hz⟩ :=
    C5_draw_count (startedApp bareScene) sampleFramebuffer 2 0 bareScene
      (by decide) (by decide)
  exact ⟨⟨by decide, by decide, s1, cl, hR, hcl, by rw [hc]; rfl⟩,
    ⟨by decide, by decide, hbare, s2, cl2, hR2, hcl2, hz hbare⟩⟩

/-- C6: `sizeof(ConstantBufferEntry)`, 16 floats of `viewProjMatrix` plus
`16 * 3` floats of padding at 4 bytes each, is exactly 256 bytes, the value of
`nvrhi::c_ConstantBufferOffsetSizeAlignment` that the `static_assert`
requires. -/
theorem C6_constant_buffer_entry_size :
    sizeofConstantBufferEntry = 256 ∧
    sizeofConstantBufferEntry = 16 * sizeofFloat + 16 * 3 * sizeofFloat ∧
    sizeofFloat = 4 ∧
    sizeofConstantBufferEntry = c_ConstantBufferOffsetSizeAlignment := by
  decide

/-- C7: for every number of views `n` (a `uint32_t`) and every
`viewIndex < n`, the range bound for the view is the `viewIndex`-th range of
the loop, its offset is `sizeof(ConstantBufferEntry) * viewIndex` without
wrap-around, offset and size are multiples of 256 bytes, the range lies
inside the constant buffer of `sizeof(ConstantBufferEntry) * n` bytes, and it
has no byte in common with the range of any other view index. -/
theorem C7_view_buffer_ranges (n viewIndex : Nat)
    (hn : n < 2 ^ 32) (hv : viewIndex < n) :
    (viewBufferRanges n 0).get? viewIndex = some (viewBufferRange viewIndex) ∧
    (viewBufferRange viewIndex).byteOffset = sizeofConstantBufferEntry * viewIndex ∧
    (viewBufferRange viewIndex).byteSize = sizeofConstantBufferEntry ∧
    (viewBufferRange viewIndex).byteOffset % 256 = 0 ∧
    (viewBufferRange viewIndex).byteSize % 256 = 0 ∧
    constantBufferByteSize n = sizeofConstantBufferEntry * n ∧
    (viewBufferRange viewIndex).byteOffset + (viewBufferRange viewIndex).byteSize
      ≤ constantBufferByteSize n ∧
    ∀ other, other < n → other ≠ viewIndex →
      (viewBufferRange viewIndex).disjoint (viewBufferRange other) := by
  have hs := sizeofConstantBufferEntry_eq
  have hoff : ∀ w, w < n → (viewBufferRange w).byteOffset = 256 * w := by
    intro w hw
    simp only [viewBufferRange, hs]
    exact Nat.mod_eq_of_lt (by omega)
  have hsize : ∀ w, (viewBufferRange w).byteSize = 256 := by
    intro w
    simp only [viewBufferRange, hs]
  have hbuf : constantBufferByteSize n = 256 * n := by
    simp only [constantBufferByteSize, hs]
    exact Nat.mod_eq_of_lt (by omega)
  refine ⟨?_, ?_, ?_, ?_, ?_, ?_, ?_, ?_⟩
  · rw [viewBufferRanges_get? n n 0 viewIndex rfl, if_pos (by omega), Nat.zero_add]
  · rw [hoff _ hv, hs]
  · rw [hsize, hs]
  · rw [hoff _ hv]; omega
  · rw [hsize]
  · rw [hbuf, hs]
  · rw [hoff _ hv, hsize, hbuf]; omega
  · intro other ho hne
    unfold BufferRange.disjoint
    rw [hoff _ hv, hoff _ ho, hsize, hsize]
    omega

/-- C7, witness: the single view of the sample (`c_NumViews = 1`), and the
third of four views. -/
theorem C7_view_buffer_ranges_witness :
    (c_NumViews < 2 ^ 32 ∧ 0 < c_NumViews ∧
      (viewBufferRanges c_NumViews 0).get? 0 = some ⟨0, 256⟩ ∧
      constantBufferByteSize c_NumViews = 256) ∧
    ((4 : Nat) < 2 ^ 32 ∧ 2 < 4 ∧
      viewBufferRange 2 = ⟨512, 256⟩ ∧
      (viewBufferRange 2).byteOffset + (viewBufferRange 2).byteSize
        ≤ constantBufferByteSize 4 ∧
      (viewBufferRange 2).disjoint (viewBufferRange 1) ∧
      (viewBufferRange 2).disjoint (viewBufferRange 3)) := by
  have h1 := C7_view_buffer_ranges c_NumViews 0 (by decide) (by decide)
  have h4 := C7_view_buffer_ranges 4 2 (by decide) (by decide)
  refine ⟨⟨by decide, by decide, ?_, ?_⟩, ⟨by decide, by decide, by decide,
    h4.2.2.2.2.2.2.1, h4.2.2.2.2.2.2.2 1 (by decide) (by decide),
    h4.2.2.2.2.2.2.2 3 (by decide) (by decide)⟩⟩
  · rw [h1.1]; decide
  · rw [h1.2.2.2.2.2.1]; decide

/-- C8: every vertex position of `g_Vertices` has each coordinate equal to
-0.5 or 0.5; each of the 8 corners of that cube occurs exactly 3 times among
the 24 vertices; for every `k` in 0..5 the `k`-th group of six indices
references exactly the vertices `4k .. 4k+3`, which all lie on one face plane
(one coordinate constant at -0.5 or 0.5); the six planes are distinct. -/
theorem C8_cube_mesh :
    g_Vertices.length = 24 ∧
    (∀ v ∈ g_Vertices,
      (v.position.x = -0.5 ∨ v.position.x = 0.5) ∧
      (v.position.y = -0.5 ∨ v.position.y = 0.5) ∧
      (v.position.z = -0.5 ∨ v.position.z = 0.5)) ∧
    cubeCorners.length = 8 ∧ cubeCorners.Nodup ∧
    (∀ c ∈ cubeCorners, g_Vertices.countP (fun v => v.position = c) = 3) ∧
    (∀ k : Fin 6, ∀ i, i ∈ indexGroup k ↔ 4 * k.val ≤ i ∧ i < 4 * k.val + 4) ∧
    facePlanes.length = 6 ∧ facePlanes.Nodup ∧
    (∀ k : Fin 6, ∃ axis value, facePlanes.get? k.val = some (axis, value) ∧
      (value = -0.5 ∨ value = 0.5) ∧
      ∀ i ∈ indexGroup k, ∃ p, positionAt i = some p ∧ p.coord axis = value) := by
  refine ⟨rfl, ?_, rfl, ?_, ?_, ?_, rfl, ?_, ?_⟩
  · simp [g_Vertices]
  · norm_num [cubeCorners]
  · norm_num [cubeCorners, g_Vertices, List.countP_cons]
  · intro k i
    fin_cases k <;> simp [indexGroup, g_Indices] <;> omega
  · norm_num [facePlanes]
    decide
  · intro k
    fin_cases k <;> refine ⟨_, _, rfl, ?_, ?_⟩ <;>
      first
      | exact Or.inl rfl
      | exact Or.inr rfl
      | simp [indexGroup, g_Indices, positionAt, g_Vertices, float3.coord]

/-- C9: `g_Indices` has 36 entries, a multiple of 3, that is 12 triangles;
every entry is less than 24, the number of entries of `g_Vertices`, so every
index has a vertex; no triangle repeats a vertex index. -/
theorem C9_indexed_triangle_list :
    g_Indices.length = 36 ∧ g_Indices.length % 3 = 0 ∧
    (triangles g_Indices).length = 12 ∧
    g_Vertices.length = 24 ∧
    (∀ i ∈ g_Indices, i < g_Vertices.length) ∧
    (∀ i ∈ g_Indices, (g_Vertices.get? i).isSome = true) ∧
    (∀ t ∈ triangles g_Indices, t.1 ≠ t.2.1 ∧ t.2.1 ≠ t.2.2 ∧ t.1 ≠ t.2.2) := by
  refine ⟨rfl, rfl, rfl, rfl, by decide, by decide, by decide⟩

/-- C10, at the failing groups: the second line of `g_Indices` is commented
"left face" and references the vertices 4..7, which are commented "right side
face" and have x = 0.5; the third line is commented "right face" and
references the vertices 8..11, commented "left side face", with x = -0.5. The
other four lines agree with the comments of their vertices. -/
theorem C10_face_comments_swapped :
    (indexGroup 1 = [4, 5, 6, 4, 7, 5] ∧
      g_IndicesComments.get? 1 = some Face.left ∧
      (∀ i ∈ indexGroup 1, vertexFace i = some Face.right) ∧
      (∀ i ∈ indexGroup 1, ∃ p, positionAt i = some p ∧ p.x = 0.5)) ∧
    (indexGroup 2 = [8, 9, 10, 8, 11, 9] ∧
      g_IndicesComments.get? 2 = some Face.right ∧
      (∀ i ∈ indexGroup 2, vertexFace i = some Face.left) ∧
      (∀ i ∈ indexGroup 2, ∃ p, positionAt i = some p ∧ p.x = -0.5)) ∧
    (∀ k ∈ [0, 3, 4, 5], ∀ i ∈ indexGroup k,
      vertexFace i = g_IndicesComments.get? k) := by
  refine ⟨⟨rfl, rfl, by decide, ?_⟩, ⟨rfl, rfl, by decide, ?_⟩, by decide⟩
  · simp [indexGroup, g_Indices, positionAt, g_Vertices]
  · simp [indexGroup, g_Indices, positionAt, g_Vertices]

/-- C11: for every one of the 12 triangles `(a, b, c)` of `g_Indices`, the
three vertices lie on one face plane of the cube (one coordinate constant at
-0.5 or 0.5), and the cross product `(P_b - P_a) x (P_c - P_a)`, in exact
rational arithmetic, is the unit vector of that axis pointing away from the
origin; so it is never zero and always points to the outer side. -/
theorem C11_consistent_winding :
    (triangles g_Indices).length = 12 ∧
    ∀ t : Fin 12, ∃ a b c pa pb pc axis value,
      (triangles g_Indices).get? t.val = some (a, b, c) ∧
      positionAt a = some pa ∧ positionAt b = some pb ∧ positionAt c = some pc ∧
      (value = -0.5 ∨ value = 0.5) ∧
      pa.coord axis = value ∧ pb.coord axis = value ∧ pc.coord axis = value ∧
      triangleNormal pa pb pc = outwardNormal axis value ∧
      triangleNormal pa pb pc ≠ ⟨0, 0, 0⟩ ∧
      0 < (triangleNormal pa pb pc).dot pa := by
  refine ⟨rfl, ?_⟩
  intro t
  fin_cases t <;>
    first
    | refine ⟨_, _, _, _, _, _, 0, 0.5, rfl, rfl, rfl, rfl, ?_⟩
      norm_num [g_Vertices, float3.coord, triangleNormal, float3.sub,
        float3.cross, float3.dot, outwardNormal]
      done
    | refine ⟨_, _, _, _, _, _, 0, -0.5, rfl, rfl, rfl, rfl, ?_⟩
      norm_num [g_Vertices, float3.coord, triangleNormal, float3.sub,
        float3.cross, float3.dot, outwardNormal]
      done
    | refine ⟨_, _, _, _, _, _, 1, 0.5, rfl, rfl, rfl, rfl, ?_⟩
      norm_num [g_Vertices, float3.coord, triangleNormal, float3.sub,
        float3.cross, float3.dot, outwardNormal]
      done
    | refine ⟨_, _, _, _, _, _, 1, -0.5, rfl, rfl, rfl, rfl, ?_⟩
      norm_num [g_Vertices, float3.coord, triangleNormal, float3.sub,
        float3.cross, float3.dot, outwardNormal]
      done
    | refine ⟨_, _, _, _, _, _, 2, 0.5, rfl, rfl, rfl, rfl, ?_⟩
      norm_num [g_Vertices, float3.coord, triangleNormal, float3.sub,
        float3.cross, float3.dot, outwardNormal]
      done
    | refine ⟨_, _, _, _, _, _, 2, -0.5, rfl, rfl, rfl, rfl, ?_⟩
      norm_num [g_Vertices, float3.coord, triangleNormal, float3.sub,
        float3.cross, float3.dot, outwardNormal]

/-- C12: `LoadScene` returns true if and only if `Load` succeeded; on success
`m_Scene` is the newly loaded scene and nothing else changes; on failure it
returns false and the application, with the scene it held or none, is
unchanged. -/
theorem C12_load_scene (s : BindlessRendering) (scene : Scene) (loaded : Bool) :
    ((LoadScene s scene loaded).1 = true ↔ loaded = true) ∧
    (LoadScene s scene true).1 = true ∧
    (LoadScene s scene true).2.m_Scene = some scene ∧
    (LoadScene s scene true).2 = { s with m_Scene := some scene } ∧
    (LoadScene s scene false).1 = false ∧
    (LoadScene s scene false).2.m_Scene = s.m_Scene ∧
    (LoadScene s scene false).2 = s := by
  refine ⟨?_, rfl, rfl, rfl, rfl, rfl, rfl⟩
  cases loaded <;> simp [LoadScene]

/-- C13: in every state reached from `Init` by `Render` and
`BackBufferResizing` calls, every non-null entry of `m_Framebuffers` has the
current `m_DepthBuffer` as its depth attachment; `BackBufferResizing` empties
the cache and drops the depth buffer together; the `Render` that follows
creates a new depth buffer with the width and height of the framebuffer
passed to it and attaches it to `m_Framebuffers[fbindex]`; after any `Render`
both `m_DepthBuffer` and `m_Framebuffers[fbindex]` are non-null and the
invariant holds again. -/
theorem C13_depth_framebuffer_cache (n : Nat) (scene : Scene)
    (s0 : BindlessRendering) (calls : List AppCall) (fb : IFramebuffer)
    (count idx : Nat)
    (hInit : Init (BindlessRendering.new ⟨n, []⟩) scene true = some (true, s0))
    (hcalls : ∀ c ∈ calls, c.valid) (hidx : idx < count) :
    ∃ s, runCalls s0 calls = some s ∧ DepthCacheInv s ∧
      (BackBufferResizing s).m_Framebuffers = [] ∧
      (BackBufferResizing s).m_DepthBuffer = none ∧
      (∃ s1 f, Render (BackBufferResizing s) fb count idx = some s1 ∧
        s1.m_DepthBuffer = some ⟨s.device.nextHandle, fb.width, fb.height⟩ ∧
        s1.m_Framebuffers.get? idx = some (some f) ∧
        f.desc.depthAttachment = some s.device.nextHandle ∧
        DepthCacheInv s1) ∧
      (∃ s2, Render s fb count idx = some s2 ∧
        s2.m_DepthBuffer.isSome = true ∧ (framebufferAt s2 idx).isSome = true ∧
        DepthCacheInv s2) := by
  obtain ⟨s0', h0, hi0, -, hfb0, -, -⟩ := Init_spec ⟨n, []⟩ scene
  have e0 : s0' = s0 := by
    have := h0.symm.trans hInit
    simpa using this
  subst e0
  have hinv0 : DepthCacheInv s0' := by
    intro f hf
    rw [hfb0] at hf
    cases hf
  obtain ⟨s, hrun, hi, hinv⟩ := runCalls_cache scene calls s0' hcalls hi0 hinv0
  have hiR : Initialized (BackBufferResizing s) scene := hi
  have hinvR : DepthCacheInv (BackBufferResizing s) := by
    intro f hf
    simp [BackBufferResizing] at hf
  obtain ⟨s1, hR1, -, hinv1, hd1, -, hf1, -⟩ :=
    Render_cache (BackBufferResizing s) fb count idx scene hiR hidx hinvR
  obtain ⟨s2, hR2, -, hinv2, -, hd2, hf2, -⟩ :=
    Render_cache s fb count idx scene hi hidx hinv
  have hnew : s1.m_DepthBuffer = some ⟨s.device.nextHandle, fb.width, fb.height⟩ := by
    rw [hd1]
    exact (ensureDepthBuffer_created (BackBufferResizing s) fb rfl).1
  obtain ⟨f, hget, hmem⟩ := framebufferAt_mem s1 idx hf1
  obtain ⟨d, hd, ha⟩ := hinv1 f hmem
  have hdd : d = ⟨s.device.nextHandle, fb.width, fb.height⟩ :=
    Option.some.inj (hd.symm.trans hnew)
  refine ⟨s, hrun, hinv, rfl, rfl, ⟨s1, f, hR1, hnew, hget, ?_, hinv1⟩,
    ⟨s2, hR2, hd2, hf2, hinv2⟩⟩
  rw [ha, hdd]

/-- C13, witness: `Init` on the sample scene, two frames, a resize and a
frame at another window size; then a frame on back buffer 1 of 2. -/
theorem C13_depth_framebuffer_cache_witness :
    Init (BindlessRendering.new ⟨16, []⟩) sampleScene true
      = some (true, startedApp sampleScene) ∧
    (∀ c ∈ [AppCall.render sampleFramebuffer 2 0,
        AppCall.render sampleFramebuffer 2 1, AppCall.backBufferResizing,
        AppCall.render ⟨800, 600, some 1⟩ 2 0], c.valid) ∧
    1 < 2 ∧
    ∃ s, runCalls (startedApp sampleScene)
        [AppCall.render sampleFramebuffer 2 0,
         AppCall.render sampleFramebuffer 2 1, AppCall.backBufferResizing,
         AppCall.render ⟨800, 600, some 1⟩ 2 0] = some s ∧
      DepthCacheInv s ∧
      (BackBufferResizing s).m_Framebuffers = [] ∧
      (BackBufferResizing s).m_DepthBuffer = none ∧
      (∃ s1 f, Render (BackBufferResizing s) ⟨1024, 768, some 0⟩ 2 1 = some s1 ∧
        s1.m_DepthBuffer = some ⟨s.device.nextHandle, 1024, 768⟩ ∧
        s1.m_Framebuffers.get? 1 = some (some f) ∧
        f.desc.depthAttachment = some s.device.nextHandle ∧
        DepthCacheInv s1) ∧
      (∃ s2, Render s ⟨1024, 768, some 0⟩ 2 1 = some s2 ∧
        s2.m_DepthBuffer.isSome = true ∧ (framebufferAt s2 1).isSome = true ∧
        DepthCacheInv s2) :=
  ⟨by decide, by decide, by decide,
    C13_depth_framebuffer_cache 16 sampleScene (startedApp sampleScene) _
      ⟨1024, 768, some 0⟩ 2 1 (by decide) (by decide) (by decide)⟩

end Donut
